import Mathlib

/-!
Verification development for the in-browser 3D/2D scene-builder.

The editing core is shallowly embedded: the Zustand scene store
(src/store/useSceneStore.ts), the transform-controls drag recorder
(src/core/ShapeFactory.ts, TransformControlsManager), the JSON scene
exporter/importer (src/utils/exporters.ts, SceneImporter in
src/components/CanvasView.tsx), the view-mode material swapping
(src/core/SceneManager.ts) and the sketch tool (src/core/SketchManager.ts).

THREE.Object3D identity is modelled by uuid (a natural number); the
current transform of every object lives in a map from uuid to
TransformData, mirroring the in-place mutation of shared object
references performed by the store and the scene manager.  JavaScript
numbers are modelled by rationals where the code only copies and
compares them, and by reals where the code computes with trigonometry
and square roots.
-/

namespace Builder

/-- Snapshot of an object's transform: position, quaternion, scale
(useSceneStore.ts, TransformData). -/
structure TransformData where
  position : ℚ × ℚ × ℚ
  quaternion : ℚ × ℚ × ℚ × ℚ
  scale : ℚ × ℚ × ℚ
deriving DecidableEq

/-- History entry (useSceneStore.ts, HistoryEntry): a tagged union of
add, remove and transform operations.  Objects are referenced by uuid. -/
inductive HistoryEntry where
  | add (uuid : ℕ)
  | remove (uuid : ℕ)
  | transform (uuid : ℕ) (before after : TransformData)
deriving DecidableEq

/-- State of the scene store (useSceneStore.ts).  `world` maps each
uuid to the current transform of the underlying shared THREE object;
the store's `objects` array is the list of uuids it holds. -/
structure StoreState where
  objects : List ℕ
  world : ℕ → TransformData
  past : List HistoryEntry
  future : List HistoryEntry
  selected : Option ℕ

/-- useSceneStore.addObject: append the object, record an add entry,
clear the future stack. -/
def addObject (u : ℕ) (s : StoreState) : StoreState :=
  { s with objects := s.objects ++ [u],
           past := s.past ++ [.add u],
           future := [] }

/-- useSceneStore.removeObject: filter the object out by uuid, record a
remove entry, clear the future stack. -/
def removeObject (u : ℕ) (s : StoreState) : StoreState :=
  { s with objects := s.objects.filter (fun v => v ≠ u),
           past := s.past ++ [.remove u],
           future := [] }

/-- useSceneStore.recordTransform: if before and after snapshots are
equal componentwise (the source compares the stringified component
arrays, which coincides with componentwise equality on the modelled
numbers) the state is returned unchanged; otherwise a transform entry
is pushed and the future stack is cleared. -/
def recordTransform (u : ℕ) (b a : TransformData) (s : StoreState) : StoreState :=
  if b = a then s
  else { s with past := s.past ++ [.transform u b a], future := [] }

/-- useSceneStore.undo: pop the last past entry, apply its inverse
(add becomes remove, remove becomes add, transform reapplies the
before snapshot to the object if still present), push the entry onto
the future stack.  No-op when past is empty. -/
def undo (s : StoreState) : StoreState :=
  match s.past.getLast? with
  | none => s
  | some op =>
    match op with
    | .add u =>
      { s with objects := s.objects.filter (fun v => v ≠ u),
               past := s.past.dropLast,
               future := s.future ++ [op] }
    | .remove u =>
      { s with objects := s.objects ++ [u],
               past := s.past.dropLast,
               future := s.future ++ [op] }
    | .transform u b _ =>
      { s with world := if u ∈ s.objects then Function.update s.world u b else s.world,
               past := s.past.dropLast,
               future := s.future ++ [op] }

/-- useSceneStore.redo: pop the last future entry, re-apply it (add
re-adds, remove re-removes, transform reapplies the after snapshot),
push it back onto the past stack.  No-op when future is empty. -/
def redo (s : StoreState) : StoreState :=
  match s.future.getLast? with
  | none => s
  | some op =>
    match op with
    | .add u =>
      { s with objects := s.objects ++ [u],
               past := s.past ++ [op],
               future := s.future.dropLast }
    | .remove u =>
      { s with objects := s.objects.filter (fun v => v ≠ u),
               past := s.past ++ [op],
               future := s.future.dropLast }
    | .transform u _ a =>
      { s with world := if u ∈ s.objects then Function.update s.world u a else s.world,
               past := s.past ++ [op],
               future := s.future.dropLast }

/-- useSceneStore.clearAll: on a non-empty scene, record one remove
entry per object (in list order), empty the object list and the future
stack; no-op on an empty scene. -/
def clearAll (s : StoreState) : StoreState :=
  if s.objects = [] then s
  else { s with objects := [],
                past := s.past ++ s.objects.map .remove,
                future := [] }

/-- useSceneStore.removeSelected: if something is selected, record a
remove entry for it, filter it out, clear the future stack and the
selection; no-op without a selection. -/
def removeSelected (s : StoreState) : StoreState :=
  match s.selected with
  | none => s
  | some u =>
    { s with objects := s.objects.filter (fun v => v ≠ u),
             past := s.past ++ [.remove u],
             future := [],
             selected := none }

/-- useSceneStore.setSelected restricted to the object reference. -/
def setSelected (sel : Option ℕ) (s : StoreState) : StoreState :=
  { s with selected := sel }

/-! Transform controls manager (ShapeFactory.ts, TransformControlsManager):
captures a before snapshot on drag start and emits at most one
recordTransform call on drag end, guarded by a uuid comparison. -/

/-- An object as seen by the transform widget: identity plus current
transform. -/
structure TCMObject where
  uuid : ℕ
  transform : TransformData
deriving DecidableEq

/-- The manager's private `_startTransform` field: captured uuid plus
snapshot. -/
structure StartSnapshot where
  uuid : ℕ
  snap : TransformData
deriving DecidableEq

/-- Mutable fields of TransformControlsManager. -/
structure TCMState where
  attachedObject : Option TCMObject
  startTransform : Option StartSnapshot
deriving DecidableEq

/-- Snapshot capture performed inside the dragging-changed handler. -/
def captureSnapshot (o : TCMObject) : StartSnapshot :=
  { uuid := o.uuid, snap := o.transform }

/-- A recordTransform invocation emitted by the drag-end branch:
target uuid, before snapshot, after snapshot. -/
structure RecordCall where
  uuid : ℕ
  before : TransformData
  after : TransformData
deriving DecidableEq

/-- The dragging-changed event handler (ShapeFactory.ts).  On drag
start (value true) it captures the attached object's transform (or
clears the capture when nothing is attached).  On drag end it emits
one recordTransform call only when an object is attached, a capture is
in flight, and the captured uuid matches the attached object; then it
always clears the capture. -/
def onDraggingChanged (value : Bool) (s : TCMState) : TCMState × Option RecordCall :=
  if value then
    ({ s with startTransform := s.attachedObject.map captureSnapshot }, none)
  else
    match s.attachedObject, s.startTransform with
    | some obj, some st =>
      if st.uuid = obj.uuid then
        ({ s with startTransform := none },
         some { uuid := obj.uuid, before := st.snap, after := obj.transform })
      else
        ({ s with startTransform := none }, none)
    | _, _ => ({ s with startTransform := none }, none)

/-- TransformControlsManager.attachToObject: detaches and re-attaches;
note that the source does not clear `_startTransform` here. -/
def attachToObject (o : Option TCMObject) (s : TCMState) : TCMState :=
  { s with attachedObject := o }

/-! Accumulation layer: the user-visible editing operations that push
history entries, as invoked by the UI (Toolbar.tsx, CanvasView.tsx and
the transform widget).  A drag session on object `u` moves the object
to transform `a` and then records (before, after) where before is the
transform captured at drag start. -/

/-- One completed user edit. -/
inductive SceneOp where
  | add (u : ℕ) (t : TransformData)
  | remove (u : ℕ)
  | drag (u : ℕ) (a : TransformData)
  | select (sel : Option ℕ)
  | clearAllOp
  | removeSelectedOp

/-- Apply one user edit to the store.  `add` creates a fresh object
whose current transform is `t` and hands it to addObject; `drag`
mutates the object's transform to `a` during the drag and then calls
recordTransform with the snapshot captured at drag start, exactly as
the dragging-changed handler does. -/
def applyOp (s : StoreState) : SceneOp → StoreState
  | .add u t => addObject u { s with world := Function.update s.world u t }
  | .remove u => removeObject u s
  | .drag u a =>
    recordTransform u (s.world u) a { s with world := Function.update s.world u a }
  | .select sel => setSelected sel s
  | .clearAllOp => clearAll s
  | .removeSelectedOp => removeSelected s

/-- Initial store state (empty stacks, no objects), over an arbitrary
ambient world of transforms. -/
def initState (w : ℕ → TransformData) : StoreState :=
  { objects := [], world := w, past := [], future := [], selected := none }

/-- The store state reached by a sequence of user edits. -/
def runOps (w : ℕ → TransformData) (ops : List SceneOp) : StoreState :=
  ops.foldl applyOp (initState w)

/-- Consistency between the top of the past stack and the current
state: the future stack is empty, a top add entry's object is present,
a top remove entry's object is absent, and a top transform entry's
after snapshot is the object's current transform. -/
def StoreInv (s : StoreState) : Prop :=
  s.future = [] ∧
  (∀ u, s.past.getLast? = some (.add u) → u ∈ s.objects) ∧
  (∀ u, s.past.getLast? = some (.remove u) → u ∉ s.objects) ∧
  (∀ u b a, s.past.getLast? = some (.transform u b a) → s.world u = a)

lemma storeInv_init (w : ℕ → TransformData) : StoreInv (initState w) := by
  refine ⟨rfl, ?_, ?_, ?_⟩ <;> intro u <;> simp [initState]

lemma storeInv_applyOp {s : StoreState} (h : StoreInv s) (op : SceneOp) :
    StoreInv (applyOp s op) := by
  obtain ⟨hf, hadd, hrem, htr⟩ := h
  cases op with
  | add u t =>
    refine ⟨rfl, ?_, ?_, ?_⟩
    · intro v hv
      simp only [applyOp, addObject, List.getLast?_concat, Option.some_inj] at hv ⊢
      cases hv
      simp
    · intro v hv
      simp only [applyOp, addObject, List.getLast?_concat, Option.some_inj] at hv
      cases hv
    · intro v b a hv
      simp only [applyOp, addObject, List.getLast?_concat, Option.some_inj] at hv
      cases hv
  | remove u =>
    refine ⟨rfl, ?_, ?_, ?_⟩
    · intro v hv
      simp only [applyOp, removeObject, List.getLast?_concat, Option.some_inj] at hv
      cases hv
    · intro v hv
      simp only [applyOp, removeObject, List.getLast?_concat, Option.some_inj] at hv ⊢
      cases hv
      simp
    · intro v b a hv
      simp only [applyOp, removeObject, List.getLast?_concat, Option.some_inj] at hv
      cases hv
  | drag u a =>
    by_cases hba : s.world u = a
    · have hupd : Function.update s.world u a = s.world := by
        rw [← hba]; exact Function.update_eq_self u s.world
      simp only [applyOp, recordTransform, hba, if_pos rfl, hupd]
      exact ⟨hf, hadd, hrem, htr⟩
    · refine ⟨?_, ?_, ?_, ?_⟩ <;>
        simp only [applyOp, recordTransform, if_neg hba]
      · intro v hv
        simp only [List.getLast?_concat, Option.some_inj] at hv
        cases hv
      · intro v hv
        simp only [List.getLast?_concat, Option.some_inj] at hv
        cases hv
      · intro v b' a' hv
        simp only [List.getLast?_concat, Option.some_inj] at hv
        cases hv
        simp
  | select sel =>
    exact ⟨hf, hadd, hrem, htr⟩
  | clearAllOp =>
    by_cases hobj : s.objects = []
    · simpa [applyOp, clearAll, hobj] using ⟨hf, hadd, hrem, htr⟩
    · obtain ⟨l, x, hlx⟩ := (List.eq_nil_or_concat s.objects).resolve_left hobj
      refine ⟨?_, ?_, ?_, ?_⟩ <;>
        simp only [applyOp, clearAll, if_neg hobj]
      · intro v hv
        rw [hlx] at hv
        simp only [List.concat_eq_append, List.map_append, List.map_cons, List.map_nil,
          ← List.append_assoc, List.getLast?_concat, Option.some_inj] at hv
        cases hv
      · intro v _
        simp
      · intro v b a hv
        rw [hlx] at hv
        simp only [List.concat_eq_append, List.map_append, List.map_cons, List.map_nil,
          ← List.append_assoc, List.getLast?_concat, Option.some_inj] at hv
        cases hv
  | removeSelectedOp =>
    cases hsel : s.selected with
    | none => simpa [applyOp, removeSelected, hsel] using ⟨hf, hadd, hrem, htr⟩
    | some u =>
      refine ⟨?_, ?_, ?_, ?_⟩ <;>
        simp only [applyOp, removeSelected, hsel]
      · intro v hv
        simp only [List.getLast?_concat, Option.some_inj] at hv
        cases hv
      · intro v hv
        simp only [List.getLast?_concat, Option.some_inj] at hv
        cases hv
        simp
      · intro v b a hv
        simp only [List.getLast?_concat, Option.some_inj] at hv
        cases hv

lemma storeInv_runOps (w : ℕ → TransformData) (ops : List SceneOp) :
    StoreInv (runOps w ops) := by
  have hgen : ∀ (l : List SceneOp) (s : StoreState), StoreInv s → StoreInv (l.foldl applyOp s) := by
    intro l
    induction l with
    | nil => intro s hs; exact hs
    | cons op rest ih =>
      intro s hs
      exact ih _ (storeInv_applyOp hs op)
  exact hgen ops _ (storeInv_init w)

lemma undo_redo_of_inv {s : StoreState} (h : StoreInv s) :
    (∀ u, u ∈ (redo (undo s)).objects ↔ u ∈ s.objects) ∧
    (redo (undo s)).world = s.world := by
  obtain ⟨hf, hadd, hrem, htr⟩ := h
  rcases hpast : s.past.getLast? with _ | op
  · have hu : undo s = s := by
      simp [undo, hpast]
    have hr : redo s = s := by
      simp [redo, hf]
    rw [hu, hr]
    exact ⟨fun _ => Iff.rfl, rfl⟩
  · cases op with
    | add u =>
      have hu := hadd u hpast
      have h1 : undo s =
          { s with objects := s.objects.filter (fun v => v ≠ u),
                   past := s.past.dropLast,
                   future := s.future ++ [.add u] } := by
        simp [undo, hpast]
      rw [h1]
      have h2 : (s.future ++ [HistoryEntry.add u]).getLast? = some (.add u) :=
        List.getLast?_concat _
      constructor
      · intro v
        simp only [redo, h2, List.mem_append, List.mem_filter, List.mem_singleton,
          decide_eq_true_eq]
        by_cases hv : v = u
        · subst hv; simp [hu]
        · simp [hv]
      · simp [redo, h2]
    | remove u =>
      have hu := hrem u hpast
      have h1 : undo s =
          { s with objects := s.objects ++ [u],
                   past := s.past.dropLast,
                   future := s.future ++ [.remove u] } := by
        simp [undo, hpast]
      rw [h1]
      have h2 : (s.future ++ [HistoryEntry.remove u]).getLast? = some (.remove u) :=
        List.getLast?_concat _
      constructor
      · intro v
        simp only [redo, h2, List.filter_append, List.mem_append, List.mem_filter,
          List.mem_singleton, decide_eq_true_eq]
        by_cases hv : v = u
        · subst hv; simp [hu]
        · simp [hv]
      · simp [redo, h2]
    | transform u b a =>
      have ha := htr u b a hpast
      have h1 : undo s =
          { s with world := if u ∈ s.objects then Function.update s.world u b else s.world,
                   past := s.past.dropLast,
                   future := s.future ++ [.transform u b a] } := by
        simp [undo, hpast]
      rw [h1]
      have h2 : (s.future ++ [HistoryEntry.transform u b a]).getLast? =
          some (.transform u b a) := List.getLast?_concat _
      refine ⟨fun v => by simp [redo, h2], ?_⟩
      by_cases hmem : u ∈ s.objects
      · have hupd : Function.update (Function.update s.world u b) u a = s.world := by
          rw [Function.update_idem, ← ha, Function.update_eq_self]
        simp [redo, h2, hmem, hupd]
      · simp [redo, h2, hmem]

/-- Claim C1: for any sequence of user edits accumulating
Add/Remove/Transform history entries in the store, calling undo()
immediately followed by redo() restores the exact pre-undo state: the
set of objects in the store's objects list and every object's
position, quaternion and scale are unchanged. -/
theorem undo_redo_restores_state (w : ℕ → TransformData) (ops : List SceneOp) :
    (∀ u, u ∈ (redo (undo (runOps w ops))).objects ↔ u ∈ (runOps w ops).objects) ∧
    (redo (undo (runOps w ops))).world = (runOps w ops).world :=
  undo_redo_of_inv (storeInv_runOps w ops)

/-- Claim C5: every completed user edit that pushes a history entry
(adding an object, removing an object, recording a non-trivial
transform, deleting the current selection, clearing all objects from a
non-empty scene) leaves the future (redo) stack empty immediately
after the push, so no redo is possible after a new edit. -/
theorem push_clears_future (s : StoreState) (u : ℕ) (b a : TransformData) :
    (addObject u s).future = [] ∧
    (removeObject u s).future = [] ∧
    (b ≠ a → (recordTransform u b a s).future = []) ∧
    (s.selected = some u → (removeSelected s).future = []) ∧
    (s.objects ≠ [] → (clearAll s).future = []) := by
  refine ⟨rfl, rfl, ?_, ?_, ?_⟩
  · intro h
    simp [recordTransform, h]
  · intro h
    simp [removeSelected, h]
  · intro h
    simp [clearAll, h]

/-- Concrete identity transform used by the witnesses. -/
def tdZero : TransformData :=
  { position := (0, 0, 0), quaternion := (0, 0, 0, 1), scale := (1, 1, 1) }

/-- Concrete translated transform used by the witnesses. -/
def tdOne : TransformData :=
  { position := (3, 0, 0), quaternion := (0, 0, 0, 1), scale := (1, 1, 1) }

/-- Concrete store state with one selected object. -/
def demoState : StoreState :=
  { objects := [0], world := fun _ => tdZero, past := [], future := [],
    selected := some 0 }

theorem push_clears_future_witness :
    tdZero ≠ tdOne ∧ demoState.selected = some 0 ∧ demoState.objects ≠ [] ∧
    (recordTransform 0 tdZero tdOne demoState).future = [] ∧
    (removeSelected demoState).future = [] ∧
    (clearAll demoState).future = [] := by
  have h := push_clears_future demoState 0 tdZero tdOne
  have hne : tdZero ≠ tdOne := by decide
  exact ⟨hne, rfl, by decide, h.2.2.1 hne, h.2.2.2.1 rfl, h.2.2.2.2 (by decide)⟩

/-- Claim C4: when a transform drag session ends, a Transform history
entry is appended iff the captured before snapshot differs from the
after snapshot in some component; exactly one entry is appended in
that case and none otherwise, and a single drag session emits at most
one recordTransform call (the drag-start half emits nothing). -/
theorem transform_recorded_iff_changed (st : StoreState) (u : ℕ) (b a : TransformData)
    (s : TCMState) :
    (b ≠ a → (recordTransform u b a st).past = st.past ++ [.transform u b a]) ∧
    (b = a → recordTransform u b a st = st) ∧
    (onDraggingChanged true s).2 = none ∧
    (∀ c, (onDraggingChanged false s).2 = some c →
      ∃ obj stc, s.attachedObject = some obj ∧ s.startTransform = some stc ∧
        c = { uuid := obj.uuid, before := stc.snap, after := obj.transform }) := by
  refine ⟨?_, ?_, ?_, ?_⟩
  · intro h
    simp [recordTransform, h]
  · intro h
    simp [recordTransform, h]
  · simp [onDraggingChanged]
  · intro c hc
    cases hobj : s.attachedObject with
    | none => simp [onDraggingChanged, hobj] at hc
    | some obj =>
      cases hst : s.startTransform with
      | none => simp [onDraggingChanged, hobj, hst] at hc
      | some stc =>
        by_cases huu : stc.uuid = obj.uuid
        · simp only [onDraggingChanged, Bool.false_eq_true, if_false, hobj, hst,
            if_pos huu, Option.some_inj] at hc
          exact ⟨obj, stc, rfl, rfl, hc.symm⟩
        · simp [onDraggingChanged, hobj, hst, huu] at hc

/-- Concrete manager state with matching capture and attachment. -/
def tcmDemo : TCMState :=
  { attachedObject := some { uuid := 5, transform := tdOne },
    startTransform := some { uuid := 5, snap := tdZero } }

theorem transform_recorded_iff_changed_witness :
    tdZero ≠ tdOne ∧
    (recordTransform 5 tdZero tdOne demoState).past
      = demoState.past ++ [.transform 5 tdZero tdOne] ∧
    (∃ obj stc, tcmDemo.attachedObject = some obj ∧ tcmDemo.startTransform = some stc ∧
      ({ uuid := 5, before := tdZero, after := tdOne } : RecordCall)
        = { uuid := obj.uuid, before := stc.snap, after := obj.transform }) := by
  have h := transform_recorded_iff_changed demoState 5 tdZero tdOne tcmDemo
  have hne : tdZero ≠ tdOne := by decide
  exact ⟨hne, h.1 hne, h.2.2.2 _ rfl⟩

/-- Claim C7: the drag-end handler only ever emits a record for the
object whose uuid matches the captured before snapshot; if the
attachment changed between drag start and drag end (captured uuid and
attached uuid differ), nothing is emitted. -/
theorem no_record_for_wrong_object (s : TCMState) :
    (∀ c, (onDraggingChanged false s).2 = some c →
      ∃ obj stc, s.attachedObject = some obj ∧ s.startTransform = some stc ∧
        stc.uuid = obj.uuid ∧ c.uuid = stc.uuid) ∧
    (∀ obj stc, s.attachedObject = some obj → s.startTransform = some stc →
      stc.uuid ≠ obj.uuid → (onDraggingChanged false s).2 = none) := by
  constructor
  · intro c hc
    cases hobj : s.attachedObject with
    | none => simp [onDraggingChanged, hobj] at hc
    | some obj =>
      cases hst : s.startTransform with
      | none => simp [onDraggingChanged, hobj, hst] at hc
      | some stc =>
        by_cases huu : stc.uuid = obj.uuid
        · simp only [onDraggingChanged, Bool.false_eq_true, if_false, hobj, hst,
            if_pos huu, Option.some_inj] at hc
          exact ⟨obj, stc, rfl, rfl, huu, by simp [← hc, huu]⟩
        · simp [onDraggingChanged, hobj, hst, huu] at hc
  · intro obj stc hobj hst huu
    simp [onDraggingChanged, hobj, hst, huu]

/-- Concrete manager state where the attachment changed mid-drag. -/
def tcmMismatch : TCMState :=
  { attachedObject := some { uuid := 6, transform := tdOne },
    startTransform := some { uuid := 5, snap := tdZero } }

theorem no_record_for_wrong_object_witness :
    tcmMismatch.attachedObject = some { uuid := 6, transform := tdOne } ∧
    tcmMismatch.startTransform = some { uuid := 5, snap := tdZero } ∧
    ({ uuid := 5, snap := tdZero } : StartSnapshot).uuid
      ≠ ({ uuid := 6, transform := tdOne } : TCMObject).uuid ∧
    (onDraggingChanged false tcmMismatch).2 = none := by
  refine ⟨rfl, rfl, by decide, ?_⟩
  exact (no_record_for_wrong_object tcmMismatch).2 _ _ rfl rfl (by decide)

/-! Scene serialization (exporters.ts, SceneExporter) and
deserialization (CanvasView.tsx, SceneImporter).  JSON.stringify
followed by JSON.parse round-trips the serialized records exactly
(finite doubles and enum strings), so the JSON text is elided and
export/import work directly on lists of serialized objects. -/

/-- The `type` tag of ShapeMetadata (ShapeFactory.ts). -/
inductive PrimKind where
  | box
  | sphere
  | cylinder
  | cone
  | torus
  | plane
  | extruded
deriving DecidableEq

/-- Kind-specific parameter records stored in ShapeMetadata
(ShapeFactory.ts).  The extruded record holds a THREE.Shape plus
extrude settings that the importer never reads, so it is collapsed to
a bare constructor. -/
inductive PrimParams where
  | box (width height depth : ℚ)
  | sphere (radius : ℚ) (widthSegments heightSegments : ℕ)
  | cylinder (radiusTop radiusBottom height : ℚ) (radialSegments : ℕ)
  | cone (radius height : ℚ) (radialSegments : ℕ)
  | torus (radius tube : ℚ) (radialSegments tubularSegments : ℕ)
  | plane (width height : ℚ)
  | extruded
deriving DecidableEq

/-- Field access `parameters.width`: defined on box and plane records,
undefined (none) elsewhere, mirroring JavaScript property lookup. -/
def PrimParams.width : PrimParams → Option ℚ
  | .box w _ _ => some w
  | .plane w _ => some w
  | _ => none

/-- Field access `parameters.height`. -/
def PrimParams.height : PrimParams → Option ℚ
  | .box _ h _ => some h
  | .cylinder _ _ h _ => some h
  | .cone _ h _ => some h
  | .plane _ h => some h
  | _ => none

/-- Field access `parameters.depth`. -/
def PrimParams.depth : PrimParams → Option ℚ
  | .box _ _ d => some d
  | _ => none

/-- Field access `parameters.radius`. -/
def PrimParams.radius : PrimParams → Option ℚ
  | .sphere r _ _ => some r
  | .cone r _ _ => some r
  | .torus r _ _ _ => some r
  | _ => none

/-- Field access `parameters.radiusTop`. -/
def PrimParams.radiusTop : PrimParams → Option ℚ
  | .cylinder rt _ _ _ => some rt
  | _ => none

/-- Field access `parameters.radiusBottom`. -/
def PrimParams.radiusBottom : PrimParams → Option ℚ
  | .cylinder _ rb _ _ => some rb
  | _ => none

/-- Field access `parameters.tube`. -/
def PrimParams.tube : PrimParams → Option ℚ
  | .torus _ t _ _ => some t
  | _ => none

/-- Field access `parameters.radialSegments`. -/
def PrimParams.radialSegments : PrimParams → Option ℕ
  | .cylinder _ _ _ rs => some rs
  | .cone _ _ rs => some rs
  | .torus _ _ rs _ => some rs
  | _ => none

/-- Field access `parameters.tubularSegments`. -/
def PrimParams.tubularSegments : PrimParams → Option ℕ
  | .torus _ _ _ ts => some ts
  | _ => none

/-- Field access `parameters.widthSegments`. -/
def PrimParams.widthSegments : PrimParams → Option ℕ
  | .sphere _ ws _ => some ws
  | _ => none

/-- Field access `parameters.heightSegments`. -/
def PrimParams.heightSegments : PrimParams → Option ℕ
  | .sphere _ _ hs => some hs
  | _ => none

/-- ShapeMetadata record (ShapeFactory.ts). -/
structure ShapeMetadata where
  type : PrimKind
  guid : ℕ
  parameters : PrimParams
  faceCount : ℕ
  edgeCount : ℕ
deriving DecidableEq

/-- A 3-component vector of JavaScript numbers. -/
structure Vec3 where
  x : ℚ
  y : ℚ
  z : ℚ
deriving DecidableEq

/-- Zero vector (default position and Euler rotation of a new group). -/
def originV : Vec3 := { x := 0, y := 0, z := 0 }

/-- Unit vector (default scale of a new group). -/
def unitV : Vec3 := { x := 1, y := 1, z := 1 }

/-- A top-level THREE.Group produced by ShapeFactory or the importer:
metadata plus transform.  Children meshes carry no serialized state. -/
structure PrimGroup where
  metadata : ShapeMetadata
  position : Vec3
  rotation : Vec3
  scale : Vec3
deriving DecidableEq

/-- ShapeFactory.createBox.  `generateUUID()` is modelled by the
explicit guid argument. -/
def createBox (guid : ℕ) (width height depth : ℚ) : PrimGroup :=
  { metadata := { type := .box, guid := guid, parameters := .box width height depth,
                  faceCount := 6, edgeCount := 12 },
    position := originV, rotation := originV, scale := unitV }

/-- ShapeFactory.createCone. -/
def createCone (guid : ℕ) (radius height : ℚ) (radialSegments : ℕ) : PrimGroup :=
  { metadata := { type := .cone, guid := guid,
                  parameters := .cone radius height radialSegments,
                  faceCount := radialSegments + 1, edgeCount := radialSegments * 3 },
    position := originV, rotation := originV, scale := unitV }

/-- ShapeFactory.createTorus. -/
def createTorus (guid : ℕ) (radius tube : ℚ) (radialSegments tubularSegments : ℕ) :
    PrimGroup :=
  { metadata := { type := .torus, guid := guid,
                  parameters := .torus radius tube radialSegments tubularSegments,
                  faceCount := radialSegments * tubularSegments,
                  edgeCount := radialSegments * tubularSegments },
    position := originV, rotation := originV, scale := unitV }

/-- ShapeFactory.createPlane. -/
def createPlane (guid : ℕ) (width height : ℚ) : PrimGroup :=
  { metadata := { type := .plane, guid := guid, parameters := .plane width height,
                  faceCount := 2, edgeCount := 4 },
    position := originV, rotation := originV, scale := unitV }

/-- ShapeFactory.createSphere. -/
def createSphere (guid : ℕ) (radius : ℚ) (widthSegments heightSegments : ℕ) : PrimGroup :=
  { metadata := { type := .sphere, guid := guid,
                  parameters := .sphere radius widthSegments heightSegments,
                  faceCount := widthSegments * heightSegments,
                  edgeCount := widthSegments * heightSegments * 2 },
    position := originV, rotation := originV, scale := unitV }

/-- ShapeFactory.createCylinder. -/
def createCylinder (guid : ℕ) (radiusTop radiusBottom height : ℚ)
    (radialSegments : ℕ) : PrimGroup :=
  { metadata := { type := .cylinder, guid := guid,
                  parameters := .cylinder radiusTop radiusBottom height radialSegments,
                  faceCount := radialSegments + 2, edgeCount := radialSegments * 3 },
    position := originV, rotation := originV, scale := unitV }

/-- SerializedObject record (exporters.ts). -/
structure SerializedObject where
  metadata : ShapeMetadata
  position : Vec3
  rotation : Vec3
  scale : Vec3
deriving DecidableEq

/-- A top-level scene child as seen by the exporter: the metadata
stored in userData (absent for helpers, lights and the camera) plus
the current transform. -/
structure SceneChild where
  userDataMetadata : Option ShapeMetadata
  position : Vec3
  rotation : Vec3
  scale : Vec3

/-- SceneExporter.exportScene: serialize every top-level child that
carries userData.metadata, copying its transform. -/
def exportScene (scene : List SceneChild) : List SerializedObject :=
  scene.filterMap fun child =>
    child.userDataMetadata.map fun m =>
      { metadata := m, position := child.position,
        rotation := child.rotation, scale := child.scale }

/-- SceneImporter.deserializeObject: rebuild the object through the
matching ShapeFactory call (JavaScript undefined parameter fields fall
back to the factory defaults), then apply the serialized transform and
re-attach the original metadata.  Extruded objects are skipped with a
console warning (null). -/
def deserializeObject (so : SerializedObject) : Option PrimGroup :=
  let m := so.metadata
  let obj : Option PrimGroup :=
    match m.type with
    | .box => some (createBox 0 (m.parameters.width.getD 1) (m.parameters.height.getD 1)
        (m.parameters.depth.getD 1))
    | .cone => some (createCone 0 (m.parameters.radius.getD (1/2))
        (m.parameters.height.getD 1) (m.parameters.radialSegments.getD 32))
    | .torus => some (createTorus 0 (m.parameters.radius.getD (1/2))
        (m.parameters.tube.getD (1/5)) (m.parameters.radialSegments.getD 16)
        (m.parameters.tubularSegments.getD 100))
    | .plane => some (createPlane 0 (m.parameters.width.getD 1)
        (m.parameters.height.getD 1))
    | .sphere => some (createSphere 0 (m.parameters.radius.getD (1/2))
        (m.parameters.widthSegments.getD 32) (m.parameters.heightSegments.getD 16))
    | .cylinder => some (createCylinder 0 (m.parameters.radiusTop.getD (1/2))
        (m.parameters.radiusBottom.getD (1/2)) (m.parameters.height.getD 1)
        (m.parameters.radialSegments.getD 32))
    | .extruded => none
  obj.map fun g =>
    { g with position := so.position, rotation := so.rotation, scale := so.scale,
             metadata := m }

/-- SceneImporter.importScene: deserialize each record, dropping the
ones that fail. -/
def importScene (objs : List SerializedObject) : List PrimGroup :=
  objs.filterMap deserializeObject

lemma deserializeObject_eq {so : SerializedObject}
    (h : so.metadata.type ≠ PrimKind.extruded) :
    deserializeObject so
      = some { metadata := so.metadata, position := so.position,
               rotation := so.rotation, scale := so.scale } := by
  obtain ⟨⟨t, g, prm, fc, ec⟩, p, r, sc⟩ := so
  cases t <;> simp_all [deserializeObject, createBox, createCone, createTorus,
    createPlane, createSphere, createCylinder]

/-- Claim C2: exporting a scene containing only non-extruded primitive
objects and importing the result reproduces, for every object, an
identical metadata record (kind and parameters) and an exactly equal
transform; exact equality in particular means equality within the
1e-6 floating tolerance. -/
theorem export_import_roundtrip (scene : List SceneChild)
    (h : ∀ c ∈ scene, ∃ m, c.userDataMetadata = some m ∧ m.type ≠ PrimKind.extruded) :
    List.Forall₂ (fun (c : SceneChild) (g : PrimGroup) =>
        c.userDataMetadata = some g.metadata ∧ g.position = c.position ∧
        g.rotation = c.rotation ∧ g.scale = c.scale)
      scene (importScene (exportScene scene)) := by
  induction scene with
  | nil => simp [importScene, exportScene]
  | cons c rest ih =>
    obtain ⟨m, hm, hne⟩ := h c (List.mem_cons_self c rest)
    have hrest := ih fun x hx => h x (List.mem_cons_of_mem _ hx)
    have hser : exportScene (c :: rest)
        = { metadata := m, position := c.position, rotation := c.rotation,
            scale := c.scale } :: exportScene rest := by
      simp [exportScene, hm]
    have hdes : deserializeObject
        { metadata := m, position := c.position, rotation := c.rotation,
          scale := c.scale }
        = some { metadata := m, position := c.position, rotation := c.rotation,
                 scale := c.scale } := deserializeObject_eq hne
    have himp : importScene
        ({ metadata := m, position := c.position, rotation := c.rotation,
           scale := c.scale } :: exportScene rest)
        = { metadata := m, position := c.position, rotation := c.rotation,
            scale := c.scale } :: importScene (exportScene rest) := by
      simp [importScene, hdes]
    rw [hser, himp]
    exact List.Forall₂.cons ⟨hm, rfl, rfl, rfl⟩ hrest

/-- Concrete box metadata used by the witnesses. -/
def demoMetadata : ShapeMetadata :=
  { type := .box, guid := 7, parameters := .box 1 2 3, faceCount := 6, edgeCount := 12 }

/-- Concrete one-object scene used by the witnesses. -/
def demoScene : List SceneChild :=
  [{ userDataMetadata := some demoMetadata, position := { x := 1, y := 0, z := 0 },
     rotation := originV, scale := unitV }]

theorem export_import_roundtrip_witness :
    (∀ c ∈ demoScene, ∃ m, c.userDataMetadata = some m ∧ m.type ≠ PrimKind.extruded) ∧
    List.Forall₂ (fun (c : SceneChild) (g : PrimGroup) =>
        c.userDataMetadata = some g.metadata ∧ g.position = c.position ∧
        g.rotation = c.rotation ∧ g.scale = c.scale)
      demoScene (importScene (exportScene demoScene)) := by
  have hhyp : ∀ c ∈ demoScene, ∃ m, c.userDataMetadata = some m ∧
      m.type ≠ PrimKind.extruded := by
    intro c hc
    simp only [demoScene, List.mem_singleton] at hc
    subst hc
    exact ⟨demoMetadata, rfl, by decide⟩
  exact ⟨hhyp, export_import_roundtrip demoScene hhyp⟩

/-- Claim C8: importing a scene JSON that contains an extruded object
skips that object (after a console warning) rather than failing: the
extruded entry is omitted from the returned list while every
non-extruded entry still deserializes to an object. -/
theorem import_skips_extruded (pre post : List SerializedObject) (e : SerializedObject)
    (he : e.metadata.type = PrimKind.extruded) :
    importScene (pre ++ e :: post) = importScene pre ++ importScene post ∧
    ∀ o : SerializedObject, o.metadata.type ≠ PrimKind.extruded →
      (deserializeObject o).isSome := by
  constructor
  · have hnone : deserializeObject e = none := by
      obtain ⟨⟨t, g, prm, fc, ec⟩, p, r, sc⟩ := e
      cases t <;> simp_all [deserializeObject]
    simp [importScene, List.filterMap_append, hnone]
  · intro o ho
    rw [deserializeObject_eq ho]
    rfl

/-- Concrete extruded serialized object used by the witness. -/
def demoExtruded : SerializedObject :=
  { metadata := { type := .extruded, guid := 9, parameters := .extruded,
                  faceCount := 0, edgeCount := 0 },
    position := originV, rotation := originV, scale := unitV }

/-- Concrete box serialized object used by the witness. -/
def demoBoxSer : SerializedObject :=
  { metadata := demoMetadata, position := { x := 1, y := 0, z := 0 },
    rotation := originV, scale := unitV }

theorem import_skips_extruded_witness :
    demoExtruded.metadata.type = PrimKind.extruded ∧
    importScene ([demoBoxSer] ++ demoExtruded :: [demoBoxSer])
      = importScene [demoBoxSer] ++ importScene [demoBoxSer] ∧
    demoBoxSer.metadata.type ≠ PrimKind.extruded ∧
    (deserializeObject demoBoxSer).isSome := by
  have h := import_skips_extruded [demoBoxSer] [demoBoxSer] demoExtruded rfl
  exact ⟨rfl, h.1, by decide, h.2 demoBoxSer (by decide)⟩

/-! View-mode material management (SceneManager.ts, setViewMode).
THREE.Material objects are modelled by numeric identifiers, so
reference equality of materials is identifier equality; fresh
wireframe materials draw identifiers from a counter.  Only meshes are
tracked (line segments and helpers have no material swapping). -/

/-- SceneManager view modes. -/
inductive ViewMode where
  | wireframe
  | default
  | realistic
deriving DecidableEq

/-- A mesh in the scene: identity plus currently assigned material. -/
structure SceneMesh where
  uuid : ℕ
  material : ℕ
deriving DecidableEq

/-- SceneManager state relevant to view modes: the scene's meshes, the
current view mode, the `_wireframeOriginals` side table (uuid to saved
material, in insertion order) and the supply of fresh material ids. -/
structure SceneMgrState where
  meshes : List SceneMesh
  viewMode : ViewMode
  wireframeOriginals : List (ℕ × ℕ)
  nextMaterialId : ℕ
deriving DecidableEq

/-- Restore step of setViewMode: a mesh with a saved original gets it
back; a mesh without one is untouched. -/
def restoreOriginal (origs : List (ℕ × ℕ)) (m : SceneMesh) : SceneMesh :=
  match origs.lookup m.uuid with
  | some orig => { m with material := orig }
  | none => m

/-- Wireframe traverse of setViewMode: for each mesh in scene order,
if no original is saved yet, save the current material and assign a
fresh wireframe material; meshes already present in the side table are
left as they are (the already-swapped guard). -/
def wireframePass (origs : List (ℕ × ℕ)) (next : ℕ) :
    List SceneMesh → List SceneMesh × List (ℕ × ℕ) × ℕ
  | [] => ([], origs, next)
  | m :: rest =>
    if (origs.lookup m.uuid).isSome then
      let r := wireframePass origs next rest
      (m :: r.1, r.2.1, r.2.2)
    else
      let r := wireframePass (origs ++ [(m.uuid, m.material)]) (next + 1) rest
      ({ m with material := next } :: r.1, r.2.1, r.2.2)

/-- SceneManager.setViewMode: when leaving wireframe, restore saved
originals for the meshes still in the scene and delete those entries;
when entering wireframe, run the save-and-swap traverse; the remaining
non-wireframe work only mutates flags in place and never changes which
material object a mesh references. -/
def setViewMode (mode : ViewMode) (s : SceneMgrState) : SceneMgrState :=
  let s1 :=
    if s.viewMode = ViewMode.wireframe ∧ mode ≠ ViewMode.wireframe then
      { s with meshes := s.meshes.map (restoreOriginal s.wireframeOriginals),
               wireframeOriginals := s.wireframeOriginals.filter
                 (fun p => !((s.meshes.map SceneMesh.uuid).contains p.1)) }
    else s
  let s2 :=
    if mode = ViewMode.wireframe then
      let r := wireframePass s1.wireframeOriginals s1.nextMaterialId s1.meshes
      { s1 with meshes := r.1, wireframeOriginals := r.2.1, nextMaterialId := r.2.2 }
    else s1
  { s2 with viewMode := mode }

/-- SceneManager.addShape at the mesh level. -/
def addShapeMesh (m : SceneMesh) (s : SceneMgrState) : SceneMgrState :=
  { s with meshes := s.meshes ++ [m] }

/-- SceneManager.removeShape at the mesh level. -/
def removeShapeMesh (u : ℕ) (s : SceneMgrState) : SceneMgrState :=
  { s with meshes := s.meshes.filter (fun m => m.uuid ≠ u) }

/-- A one-mesh scene in default mode with an empty side table. -/
def cexScene : SceneMgrState :=
  { meshes := [{ uuid := 0, material := 100 }], viewMode := .default,
    wireframeOriginals := [], nextMaterialId := 1 }

/-- Claim C6 counterexample: enter wireframe (saving original 100 and
assigning fresh wireframe material 1), remove the mesh while in
wireframe mode, switch back to default (the entry for uuid 0 survives,
stale, because the mesh is not in the scene), re-add the mesh still
carrying wireframe material 1 (as the undo-remove path does), then
round-trip wireframe -> default.  Before entering wireframe the mesh's
material is 1; after the round trip it is 100, so the round trip does
not restore the material that was active before entering wireframe. -/
theorem wireframe_roundtrip_cex :
    (addShapeMesh { uuid := 0, material := 1 }
        (setViewMode .default (removeShapeMesh 0 (setViewMode .wireframe cexScene)))).meshes
      = [{ uuid := 0, material := 1 }] ∧
    (setViewMode .default (setViewMode .wireframe
        (addShapeMesh { uuid := 0, material := 1 }
          (setViewMode .default (removeShapeMesh 0 (setViewMode .wireframe cexScene)))))).meshes
      = [{ uuid := 0, material := 100 }] ∧
    (100 : ℕ) ≠ 1 := by
  refine ⟨by decide, by decide, by decide⟩

lemma lookup_append (l₁ l₂ : List (ℕ × ℕ)) (u : ℕ) :
    (l₁ ++ l₂).lookup u = (l₁.lookup u).or (l₂.lookup u) := by
  induction l₁ with
  | nil => simp [List.lookup]
  | cons p rest ih =>
    obtain ⟨k, v⟩ := p
    cases hbeq : (u == k) with
    | true => simp [List.lookup, hbeq]
    | false => simp [List.lookup, hbeq, ih]

lemma wireframePass_origs_append (l : List SceneMesh) :
    ∀ origs next, ∃ ext, (wireframePass origs next l).2.1 = origs ++ ext ∧
      ∀ p ∈ ext, p.1 ∈ l.map SceneMesh.uuid := by
  induction l with
  | nil =>
    intro o n
    exact ⟨[], by simp [wireframePass], by simp⟩
  | cons m rest ih =>
    intro o n
    by_cases h : (o.lookup m.uuid).isSome
    · obtain ⟨ext, he, hk⟩ := ih o n
      refine ⟨ext, by simp [wireframePass, h, he], ?_⟩
      intro p hp
      simp only [List.map_cons, List.mem_cons]
      exact Or.inr (hk p hp)
    · obtain ⟨ext, he, hk⟩ := ih (o ++ [(m.uuid, m.material)]) (n + 1)
      refine ⟨(m.uuid, m.material) :: ext, ?_, ?_⟩
      · simp [wireframePass, h, he]
      · intro p hp
        rcases List.mem_cons.mp hp with hp | hp
        · subst hp; simp
        · simp only [List.map_cons, List.mem_cons]
          exact Or.inr (hk p hp)

lemma wireframePass_lookup (l : List SceneMesh) :
    ∀ origs next (m : SceneMesh), (l.map SceneMesh.uuid).Nodup → m ∈ l →
      origs.lookup m.uuid = none →
      ((wireframePass origs next l).2.1).lookup m.uuid = some m.material := by
  induction l with
  | nil =>
    intro o n m _ hm
    exact absurd hm (List.not_mem_nil m)
  | cons m0 rest ih =>
    intro o n m hnd hm hno
    have hnd0 : m0.uuid ∉ rest.map SceneMesh.uuid := (List.nodup_cons.mp hnd).1
    have hndr : (rest.map SceneMesh.uuid).Nodup := (List.nodup_cons.mp hnd).2
    rcases List.mem_cons.mp hm with rfl | hmr
    · have h : (o.lookup m.uuid).isSome = false := by simp [hno]
      obtain ⟨ext, he, hk⟩ := wireframePass_origs_append rest
        (o ++ [(m.uuid, m.material)]) (n + 1)
      simp only [wireframePass, h, Bool.false_eq_true, if_false]
      rw [he, lookup_append, lookup_append, hno]
      simp [List.lookup]
    · have huu : m.uuid ≠ m0.uuid := by
        intro hcontra
        exact hnd0 (hcontra ▸ List.mem_map_of_mem SceneMesh.uuid hmr)
      by_cases h : (o.lookup m0.uuid).isSome
      · simp only [wireframePass, h, if_true]
        exact ih o n m hndr hmr hno
      · simp only [wireframePass, h, Bool.false_eq_true, if_false]
        refine ih (o ++ [(m0.uuid, m0.material)]) (n + 1) m hndr hmr ?_
        rw [lookup_append, hno]
        have hbf : (m.uuid == m0.uuid) = false := beq_false_of_ne huu
        simp [List.lookup, hbf]

lemma wireframePass_find (l : List SceneMesh) :
    ∀ origs next (m : SceneMesh), (l.map SceneMesh.uuid).Nodup → m ∈ l →
      origs.lookup m.uuid = none →
      ∃ k, (wireframePass origs next l).1.find? (fun mm => mm.uuid = m.uuid)
        = some { uuid := m.uuid, material := k } := by
  induction l with
  | nil =>
    intro o n m _ hm
    exact absurd hm (List.not_mem_nil m)
  | cons m0 rest ih =>
    intro o n m hnd hm hno
    have hnd0 : m0.uuid ∉ rest.map SceneMesh.uuid := (List.nodup_cons.mp hnd).1
    have hndr : (rest.map SceneMesh.uuid).Nodup := (List.nodup_cons.mp hnd).2
    rcases List.mem_cons.mp hm with rfl | hmr
    · have h : (o.lookup m.uuid).isSome = false := by simp [hno]
      refine ⟨n, ?_⟩
      simp [wireframePass, h, List.find?]
    · have huu : m0.uuid ≠ m.uuid := by
        intro hcontra
        exact hnd0 (hcontra ▸ List.mem_map_of_mem SceneMesh.uuid hmr)
      by_cases h : (o.lookup m0.uuid).isSome
      · obtain ⟨k, hk⟩ := ih o n m hndr hmr hno
        refine ⟨k, ?_⟩
        simp [wireframePass, h, List.find?, huu, hk]
      · obtain ⟨k, hk⟩ := ih (o ++ [(m0.uuid, m0.material)]) (n + 1) m hndr hmr
          (by
            rw [lookup_append, hno]
            have hbf : (m.uuid == m0.uuid) = false := beq_false_of_ne (Ne.symm huu)
            simp [List.lookup, hbf])
        refine ⟨k, ?_⟩
        simp [wireframePass, h, List.find?, huu, hk]

lemma wireframePass_saturated (l : List SceneMesh) :
    ∀ origs next, (∀ m ∈ l, (origs.lookup m.uuid).isSome) →
      wireframePass origs next l = (l, origs, next) := by
  induction l with
  | nil => intro o n _; rfl
  | cons m rest ih =>
    intro o n h
    have hm := h m (List.mem_cons_self m rest)
    simp [wireframePass, hm, ih o n (fun x hx => h x (List.mem_cons_of_mem m hx))]

lemma wireframePass_covers (l : List SceneMesh) :
    ∀ origs next, ∀ mm ∈ (wireframePass origs next l).1,
      (((wireframePass origs next l).2.1).lookup mm.uuid).isSome := by
  induction l with
  | nil =>
    intro o n mm hmm
    exact absurd hmm (List.not_mem_nil mm)
  | cons m rest ih =>
    intro o n mm hmm
    by_cases h : (o.lookup m.uuid).isSome
    · simp only [wireframePass, h, if_true] at hmm ⊢
      rcases List.mem_cons.mp hmm with rfl | hmr
      · obtain ⟨ext, he, _⟩ := wireframePass_origs_append rest o n
        rw [he, lookup_append]
        rcases Option.isSome_iff_exists.mp h with ⟨v, hv⟩
        simp [hv]
      · exact ih o n mm hmr
    · simp only [wireframePass, h, Bool.false_eq_true, if_false] at hmm ⊢
      rcases List.mem_cons.mp hmm with rfl | hmr
      · obtain ⟨ext, he, _⟩ := wireframePass_origs_append rest
          (o ++ [(m.uuid, m.material)]) (n + 1)
        rw [he, lookup_append, lookup_append]
        cases hol : o.lookup m.uuid with
        | some v => simp [hol]
        | none => simp [hol, List.lookup]
      · exact ih (o ++ [(m.uuid, m.material)]) (n + 1) mm hmr

lemma restoreOriginal_uuid (o : List (ℕ × ℕ)) (m : SceneMesh) :
    (restoreOriginal o m).uuid = m.uuid := by
  unfold restoreOriginal
  cases o.lookup m.uuid <;> rfl

lemma find?_map_restore (origs : List (ℕ × ℕ)) (l : List SceneMesh) (u : ℕ) :
    (l.map (restoreOriginal origs)).find? (fun mm => mm.uuid = u)
      = (l.find? (fun mm => mm.uuid = u)).map (restoreOriginal origs) := by
  induction l with
  | nil => simp
  | cons m rest ih =>
    by_cases h : m.uuid = u
    · simp [List.find?, restoreOriginal_uuid, h]
    · simp [List.find?, restoreOriginal_uuid, h, ih]

/-- Claim C6 (amended): switching to wireframe and back to default
restores the reference-identical material for every mesh that has no
stale entry in the wireframe-originals side table when wireframe mode
is entered (stale entries arise only when a mesh is removed from the
scene during a wireframe session and re-added later); moreover the
save-and-swap runs at most once per object and per wireframe session:
entering wireframe a second time changes nothing. -/
lemma setViewMode_wireframe_eq (s : SceneMgrState) :
    setViewMode ViewMode.wireframe s =
      { meshes := (wireframePass s.wireframeOriginals s.nextMaterialId s.meshes).1,
        viewMode := ViewMode.wireframe,
        wireframeOriginals :=
          (wireframePass s.wireframeOriginals s.nextMaterialId s.meshes).2.1,
        nextMaterialId :=
          (wireframePass s.wireframeOriginals s.nextMaterialId s.meshes).2.2 } := by
  simp [setViewMode]

lemma setViewMode_default_of_wireframe (s : SceneMgrState)
    (h : s.viewMode = ViewMode.wireframe) :
    setViewMode ViewMode.default s =
      { s with meshes := s.meshes.map (restoreOriginal s.wireframeOriginals),
               wireframeOriginals := s.wireframeOriginals.filter
                 (fun p => !((s.meshes.map SceneMesh.uuid).contains p.1)),
               viewMode := ViewMode.default } := by
  simp [setViewMode, h]

lemma roundtrip_meshes (s : SceneMgrState) :
    (setViewMode ViewMode.default (setViewMode ViewMode.wireframe s)).meshes
      = ((wireframePass s.wireframeOriginals s.nextMaterialId s.meshes).1).map
          (restoreOriginal
            (wireframePass s.wireframeOriginals s.nextMaterialId s.meshes).2.1) := by
  rw [setViewMode_wireframe_eq, setViewMode_default_of_wireframe _ rfl]

lemma wireframe_idem (s : SceneMgrState) :
    setViewMode ViewMode.wireframe (setViewMode ViewMode.wireframe s)
      = setViewMode ViewMode.wireframe s := by
  rw [setViewMode_wireframe_eq s]
  rw [setViewMode_wireframe_eq]
  simp only [wireframePass_saturated _ _ _
    (wireframePass_covers s.meshes s.wireframeOriginals s.nextMaterialId)]

/-- Claim C6 (amended): switching to wireframe and back to default
restores the reference-identical material for every mesh that has no
stale entry in the wireframe-originals side table when wireframe mode
is entered (stale entries arise only when a mesh is removed from the
scene during a wireframe session and re-added later); moreover the
save-and-swap runs at most once per object and per wireframe session:
entering wireframe a second time changes nothing. -/
theorem wireframe_roundtrip_restores (s : SceneMgrState) (m : SceneMesh)
    (hnd : (s.meshes.map SceneMesh.uuid).Nodup)
    (hm : m ∈ s.meshes)
    (hno : s.wireframeOriginals.lookup m.uuid = none) :
    ((setViewMode .default (setViewMode .wireframe s)).meshes.find?
        (fun mm => mm.uuid = m.uuid)) = some m ∧
    setViewMode .wireframe (setViewMode .wireframe s) = setViewMode .wireframe s := by
  refine ⟨?_, wireframe_idem s⟩
  obtain ⟨k, hk⟩ := wireframePass_find s.meshes s.wireframeOriginals
    s.nextMaterialId m hnd hm hno
  have hlk := wireframePass_lookup s.meshes s.wireframeOriginals
    s.nextMaterialId m hnd hm hno
  rw [roundtrip_meshes, find?_map_restore, hk]
  obtain ⟨mu, mmat⟩ := m
  simp only [Option.map_some]
  simp [restoreOriginal, hlk]

/-- A two-mesh scene used as witness input. -/
def demoMgr : SceneMgrState :=
  { meshes := [{ uuid := 0, material := 100 }, { uuid := 1, material := 200 }],
    viewMode := .default, wireframeOriginals := [], nextMaterialId := 2 }

theorem wireframe_roundtrip_restores_witness :
    ((demoMgr.meshes.map SceneMesh.uuid).Nodup ∧
      ({ uuid := 0, material := 100 } : SceneMesh) ∈ demoMgr.meshes ∧
      demoMgr.wireframeOriginals.lookup 0 = none) ∧
    ((setViewMode .default (setViewMode .wireframe demoMgr)).meshes.find?
        (fun mm => mm.uuid = 0)) = some { uuid := 0, material := 100 } ∧
    setViewMode .wireframe (setViewMode .wireframe demoMgr)
      = setViewMode .wireframe demoMgr := by
  have h := wireframe_roundtrip_restores demoMgr { uuid := 0, material := 100 }
    (by decide) (by decide) (by decide)
  exact ⟨⟨by decide, by decide, by decide⟩, h.1, h.2⟩

/-! Sketch tool (SketchManager.ts).  Coordinates are real numbers:
the source computes with square roots (Vector3.distanceTo) and
trigonometry (circle, ellipse and polygon sampling). -/

noncomputable section

/-- Sketch tools (SketchManager.ts, currentTool). -/
inductive Tool where
  | rectangle
  | circle
  | triangle
  | ellipse
  | polygon
deriving DecidableEq

/-- A THREE.Vector3 world point. -/
structure V3R where
  x : ℝ
  y : ℝ
  z : ℝ

/-- THREE.Vector3.distanceTo. -/
def dist3 (a b : V3R) : ℝ :=
  Real.sqrt ((b.x - a.x) ^ 2 + (b.y - a.y) ^ 2 + (b.z - a.z) ^ 2)

/-- Effective polygon side count:
Math.max(3, Math.floor(polygonSides || 5)), the stored count being an
integer already. -/
def effectiveSides (n : ℕ) : ℕ := max 3 (if n = 0 then 5 else n)

/-- SketchManager.buildOutlinePoints: outline vertices in the XY plane
for the hollow preview and the committed LineLoop. -/
def buildOutlinePoints (tool : Tool) (polygonSides : ℕ) (start stop : V3R) :
    List (ℝ × ℝ) :=
  match tool with
  | .rectangle =>
    let w := |stop.x - start.x|
    let d := |stop.z - start.z|
    [(-w / 2, -d / 2), (w / 2, -d / 2), (w / 2, d / 2), (-w / 2, d / 2)]
  | .circle =>
    let r := dist3 start stop
    (List.range 64).map fun i : ℕ =>
      (Real.cos ((i : ℝ) / 64 * Real.pi * 2) * r,
       Real.sin ((i : ℝ) / 64 * Real.pi * 2) * r)
  | .triangle =>
    let w := |stop.x - start.x|
    let d := |stop.z - start.z|
    [(0, d / 2), (w / 2, -d / 2), (-w / 2, -d / 2)]
  | .ellipse =>
    let rx := |stop.x - start.x|
    let ry := |stop.z - start.z|
    (List.range 64).map fun i : ℕ =>
      (Real.cos ((i : ℝ) / 64 * Real.pi * 2) * rx,
       Real.sin ((i : ℝ) / 64 * Real.pi * 2) * ry)
  | .polygon =>
    let sides := effectiveSides polygonSides
    let r := dist3 start stop
    (List.range sides).map fun i : ℕ =>
      (Real.cos ((i : ℝ) / (sides : ℝ) * Real.pi * 2) * r,
       Real.sin ((i : ℝ) / (sides : ℝ) * Real.pi * 2) * r)

/-- A profile boundary: an explicit vertex polyline (from moveTo and
lineTo calls, or from sampled curve points), or the full-circle absarc
of a given radius. -/
inductive Boundary where
  | poly (pts : List (ℝ × ℝ))
  | arc (radius : ℝ)

/-- A THREE.Shape: outer boundary plus holes. -/
structure Shape2D where
  outer : Boundary
  holes : List Boundary

/-- SketchManager.buildShape: the THREE.Shape for the active tool.
The ellipse branch samples EllipseCurve.getPoints(64), yielding 65
vertices at parameters i/64; the polygon branch lists its vertices,
closePath adding only the closing segment. -/
def buildShape (tool : Tool) (hollow : Bool) (polygonSides : ℕ) (start stop : V3R) :
    Shape2D :=
  match tool with
  | .rectangle =>
    let width := |stop.x - start.x|
    let depth := |stop.z - start.z|
    let outerB := Boundary.poly [(-width / 2, -depth / 2), (width / 2, -depth / 2),
      (width / 2, depth / 2), (-width / 2, depth / 2), (-width / 2, -depth / 2)]
    if hollow then
      let insetX := max (width * 0.08) 0.01
      let insetZ := max (depth * 0.08) 0.01
      { outer := outerB,
        holes := [Boundary.poly [(-width / 2 + insetX, -depth / 2 + insetZ),
          (width / 2 - insetX, -depth / 2 + insetZ),
          (width / 2 - insetX, depth / 2 - insetZ),
          (-width / 2 + insetX, depth / 2 - insetZ),
          (-width / 2 + insetX, -depth / 2 + insetZ)]] }
    else { outer := outerB, holes := [] }
  | .circle =>
    let radius := dist3 start stop
    if hollow then
      { outer := Boundary.arc radius,
        holes := [Boundary.arc (max (radius * 0.6) 0.01)] }
    else { outer := Boundary.arc radius, holes := [] }
  | .triangle =>
    let width := |stop.x - start.x|
    let depth := |stop.z - start.z|
    let outerB := Boundary.poly [(0, depth / 2), (width / 2, -(depth / 2)),
      (-(width / 2), -(depth / 2)), (0, depth / 2)]
    if hollow then
      { outer := outerB,
        holes := [Boundary.poly [(0, depth / 2 * 0.6),
          (width / 2 * 0.6, -(depth / 2) * 0.6),
          (-(width / 2) * 0.6, -(depth / 2) * 0.6),
          (0, depth / 2 * 0.6)]] }
    else { outer := outerB, holes := [] }
  | .ellipse =>
    let rx := |stop.x - start.x|
    let ry := |stop.z - start.z|
    let outerB := Boundary.poly ((List.range 65).map fun i : ℕ =>
      (rx * Real.cos ((i : ℝ) / 64 * Real.pi * 2),
       ry * Real.sin ((i : ℝ) / 64 * Real.pi * 2)))
    if hollow then
      let irx := max (rx * 0.6) 0.01
      let iry := max (ry * 0.6) 0.01
      { outer := outerB,
        holes := [Boundary.poly ((List.range 65).map fun i : ℕ =>
          (irx * Real.cos ((i : ℝ) / 64 * Real.pi * 2),
           iry * Real.sin ((i : ℝ) / 64 * Real.pi * 2)))] }
    else { outer := outerB, holes := [] }
  | .polygon =>
    let sides := effectiveSides polygonSides
    let radius := dist3 start stop
    let outerB := Boundary.poly ((List.range sides).map fun i : ℕ =>
      (Real.cos ((i : ℝ) / (sides : ℝ) * Real.pi * 2) * radius,
       Real.sin ((i : ℝ) / (sides : ℝ) * Real.pi * 2) * radius))
    if hollow then
      let innerR := max (radius * 0.5) 0.01
      { outer := outerB,
        holes := [Boundary.poly ((List.range sides).map fun i : ℕ =>
          (Real.cos ((i : ℝ) / (sides : ℝ) * Real.pi * 2) * innerR,
           Real.sin ((i : ℝ) / (sides : ℝ) * Real.pi * 2) * innerR))] }
    else { outer := outerB, holes := [] }

/-- Horizontal extent (max x minus min x) of a boundary.  Polylines
use their vertex list; the full-circle absarc of radius r spans
[-r, r] on each axis (r is nonnegative in every use, being a distance
or a max with 0.01). -/
def extentX : Boundary → ℝ
  | .poly [] => 0
  | .poly (p :: ps) =>
    (ps.map Prod.fst).foldl max p.1 - (ps.map Prod.fst).foldl min p.1
  | .arc r => 2 * r

/-- Vertical extent (max y minus min y) of a boundary. -/
def extentY : Boundary → ℝ
  | .poly [] => 0
  | .poly (p :: ps) =>
    (ps.map Prod.snd).foldl max p.2 - (ps.map Prod.snd).foldl min p.2
  | .arc r => 2 * r

/-- One boundary strictly smaller in extent than another, on both
work-plane axes. -/
def smallerExtent (inner outerB : Boundary) : Prop :=
  extentX inner < extentX outerB ∧ extentY inner < extentY outerB

/-- SketchManager.getIntersectionPoint snapping: round each work-plane
coordinate to the nearest grid multiple when snapping is on. -/
def snapPoint (snapToGrid : Bool) (gridSize : ℝ) (p : V3R) : V3R :=
  if snapToGrid then
    { x := (round (p.x / gridSize) : ℤ) * gridSize, y := p.y,
      z := (round (p.z / gridSize) : ℤ) * gridSize }
  else p

/-- Mutable fields of SketchManager driving the pointer pipeline. -/
structure SketchState where
  isDrawing : Bool
  startPoint : Option V3R
  currentTool : Option Tool
  snapToGrid : Bool
  gridSize : ℝ
  hollow : Bool
  polygonSides : ℕ
  extrudeEnabled : Bool
  extrudeDepth : ℝ

/-- SketchManager field initializers. -/
def initSketch : SketchState :=
  { isDrawing := false, startPoint := none, currentTool := none,
    snapToGrid := true, gridSize := 0.5, hollow := false, polygonSides := 5,
    extrudeEnabled := false, extrudeDepth := 0.2 }

/-- SketchManager.enableSketchMode (overlays and orbit controls are
not modelled): arm the tool, set the hollow flag, accept a side count
of at least 3. -/
def enableSketchMode (tool : Tool) (hollow : Bool) (polygonSides : Option ℕ)
    (s : SketchState) : SketchState :=
  { s with currentTool := some tool, hollow := hollow,
           polygonSides := match polygonSides with
             | some n => if 3 ≤ n then n else s.polygonSides
             | none => s.polygonSides }

/-- SketchManager.handleMouseDown: with a tool armed, record the
snapped plane intersection as the anchor and start drawing. -/
def handleMouseDown (p : V3R) (s : SketchState) : SketchState :=
  match s.currentTool with
  | none => s
  | some _ =>
    { s with isDrawing := true,
             startPoint := some (snapPoint s.snapToGrid s.gridSize p) }

/-- Placement of a previewed or committed sketch mesh: rectangles are
centred between the anchors, every other tool sits at the start
anchor. -/
def sketchPlacement (tool : Tool) (y : ℝ) (start stop : V3R) : V3R :=
  match tool with
  | .rectangle => { x := (start.x + stop.x) / 2, y := y, z := (start.z + stop.z) / 2 }
  | _ => { x := start.x, y := y, z := start.z }

/-- A child of a committed sketch group: hollow outline (LineLoop),
flat ShapeGeometry mesh, or extruded mesh.  Each is rotated -pi/2
about x and placed at the stored position. -/
inductive SketchChild where
  | lineLoop (pts : List (ℝ × ℝ)) (position : V3R)
  | flatMesh (shape : Shape2D) (position : V3R)
  | extrudedMesh (shape : Shape2D) (depth : ℝ) (position : V3R)

/-- The committed THREE.Group with its userData flags. -/
structure SketchGroup where
  children : List SketchChild
  tool : Tool
  extruded : Bool
  extrudeDepth : ℝ

/-- SketchManager.createShape: build the profile, then either a hollow
outline, an extruded mesh (lifted by half the depth) or a flat mesh
(lifted by 0.01), and tag the group's userData. -/
def createShape (tool : Tool) (hollow extrudeEnabled : Bool) (extrudeDepth : ℝ)
    (polygonSides : ℕ) (start stop : V3R) : SketchGroup :=
  let shape := buildShape tool hollow polygonSides start stop
  let children :=
    if hollow then
      [SketchChild.lineLoop (buildOutlinePoints tool polygonSides start stop)
        (sketchPlacement tool 0.01 start stop)]
    else if extrudeEnabled = true ∧ 0 < extrudeDepth then
      [SketchChild.extrudedMesh shape extrudeDepth
        (sketchPlacement tool (extrudeDepth / 2) start stop)]
    else
      [SketchChild.flatMesh shape (sketchPlacement tool 0.01 start stop)]
  { children := children, tool := tool,
    extruded := extrudeEnabled && decide (extrudeDepth ≠ 0),
    extrudeDepth := extrudeDepth }

/-- SketchManager.handleMouseUp: when drawing with a tool armed,
commit the shape built from the stored anchor and the snapped release
point, then reset the drawing state and clear the preview; otherwise
return nothing and leave the state as it is. -/
def handleMouseUp (p : V3R) (s : SketchState) : Option SketchGroup × SketchState :=
  match s.isDrawing, s.startPoint, s.currentTool with
  | true, some sp, some tool =>
    (some (createShape tool s.hollow s.extrudeEnabled s.extrudeDepth s.polygonSides
        sp (snapPoint s.snapToGrid s.gridSize p)),
     { s with isDrawing := false, startPoint := none })
  | _, _, _ => (none, s)

/-- SketchManager.setGridSize: clamp the stored grid size to at least
0.01 (the grid helper rebuild is not modelled). -/
def setGridSize (size : ℝ) (s : SketchState) : SketchState :=
  { s with gridSize := max 0.01 size }

/-- Claim C10: for every numeric input, including zero and negative
values, setGridSize stores max(0.01, size); the stored grid size is
therefore strictly positive and the snapping division
round(coord / gridSize) never divides by zero. -/
theorem setGridSize_clamps (size : ℝ) (s : SketchState) :
    (setGridSize size s).gridSize = max 0.01 size ∧
    0 < (setGridSize size s).gridSize ∧
    (setGridSize size s).gridSize ≠ 0 := by
  have h : (0 : ℝ) < max 0.01 size :=
    lt_of_lt_of_le (by norm_num) (le_max_left _ _)
  exact ⟨rfl, h, ne_of_gt h⟩

/-- The origin anchor used by the counterexample. -/
def originPt : V3R := { x := 0, y := 0, z := 0 }

/-- Claim C3 counterexample: for the rectangle tool with a zero-length
drag (both anchors at the origin) and the hollow flag set, the
constructed hole is not strictly smaller in extent than the outer
boundary: the outer boundary is a degenerate point of extent 0 while
the 0.01 inset floor gives the hole extent 0.02 on each axis. -/
theorem hollow_not_smaller_cex :
    ¬ (∀ hb ∈ (buildShape .rectangle true 5 originPt originPt).holes,
        smallerExtent hb (buildShape .rectangle true 5 originPt originPt).outer) := by
  have hbs : buildShape .rectangle true 5 originPt originPt
      = { outer := Boundary.poly [(0, 0), (0, 0), (0, 0), (0, 0), (0, 0)],
          holes := [Boundary.poly [(0.01, 0.01), (-0.01, 0.01), (-0.01, -0.01),
            (0.01, -0.01), (0.01, 0.01)]] } := by
    simp only [buildShape, originPt]
    norm_num
  intro h
  have hmem := h (Boundary.poly [(0.01, 0.01), (-0.01, 0.01), (-0.01, -0.01),
    (0.01, -0.01), (0.01, 0.01)]) (by rw [hbs]; exact List.mem_singleton.mpr rfl)
  rw [hbs] at hmem
  obtain ⟨h1, _⟩ := hmem
  norm_num [extentX] at h1

/-- The pointer-up point of Scenario B. -/
def scenarioEnd : V3R := { x := 2, y := 0, z := 1 }

/-- Claim C9: Scenario B.  With the rectangle sketch tool enabled,
grid size 0.5 and snapping on, a pointer-down at the origin and a
pointer-move to (2,0,1) produce a preview built by the same
buildShape call, whose outer boundary is the width-2 depth-1
rectangle; a pointer-up at (2,0,1) commits exactly one new flat
(non-extruded) sketch object whose single mesh child is positioned at
(1, 0.01, 0.5) (the group builds the profile in a local frame and
carries the placement on its mesh child). -/
theorem rectangle_scenario_b :
    snapPoint true (0.5 : ℝ) originPt = originPt ∧
    snapPoint true (0.5 : ℝ) scenarioEnd = scenarioEnd ∧
    (buildShape .rectangle false 5 originPt scenarioEnd).outer
      = Boundary.poly [(-1, -(1 / 2)), (1, -(1 / 2)), (1, 1 / 2), (-1, 1 / 2),
          (-1, -(1 / 2))] ∧
    (handleMouseUp scenarioEnd
        (handleMouseDown originPt
          (enableSketchMode .rectangle false none initSketch))).1
      = some { children := [SketchChild.flatMesh
                 (buildShape .rectangle false 5 originPt scenarioEnd)
                 { x := 1, y := 0.01, z := 0.5 }],
               tool := .rectangle, extruded := false, extrudeDepth := 0.2 } := by
  have hsnap0 : snapPoint true (0.5 : ℝ) originPt = originPt := by
    simp only [snapPoint, originPt, if_true]
    norm_num
  have hsnap1 : snapPoint true (0.5 : ℝ) scenarioEnd = scenarioEnd := by
    simp only [snapPoint, scenarioEnd, if_true]
    norm_num [round_eq]
  have houter : (buildShape .rectangle false 5 originPt scenarioEnd).outer
      = Boundary.poly [(-1, -(1 / 2)), (1, -(1 / 2)), (1, 1 / 2), (-1, 1 / 2),
          (-1, -(1 / 2))] := by
    simp only [buildShape, originPt, scenarioEnd]
    norm_num
  refine ⟨hsnap0, hsnap1, houter, ?_⟩
  simp only [handleMouseUp, handleMouseDown, enableSketchMode, initSketch, hsnap0, hsnap1]
  simp only [createShape, sketchPlacement]
  norm_num [originPt, scenarioEnd]

lemma le_foldl_max : ∀ (l : List ℝ) (a : ℝ), a ≤ l.foldl max a := by
  intro l
  induction l with
  | nil => intro a; exact le_refl a
  | cons x xs ih =>
    intro a
    exact le_trans (le_max_left a x) (ih (max a x))

lemma foldl_max_le : ∀ (l : List ℝ) (a c : ℝ), a ≤ c → (∀ x ∈ l, x ≤ c) →
    l.foldl max a ≤ c := by
  intro l
  induction l with
  | nil => intro a c ha _; exact ha
  | cons x xs ih =>
    intro a c ha h
    exact ih (max a x) c (max_le ha (h x (List.mem_cons_self x xs)))
      fun y hy => h y (List.mem_cons_of_mem x hy)

lemma mem_le_foldl_max : ∀ (l : List ℝ) (a x : ℝ), x ∈ l → x ≤ l.foldl max a := by
  intro l
  induction l with
  | nil => intro a x hx; exact absurd hx (List.not_mem_nil x)
  | cons y ys ih =>
    intro a x hx
    rcases List.mem_cons.mp hx with rfl | hx
    · exact le_trans (le_max_right a x) (le_foldl_max ys (max a x))
    · exact ih (max a y) x hx

lemma foldl_min_le : ∀ (l : List ℝ) (a : ℝ), l.foldl min a ≤ a := by
  intro l
  induction l with
  | nil => intro a; exact le_refl a
  | cons x xs ih =>
    intro a
    exact le_trans (ih (min a x)) (min_le_left a x)

lemma le_foldl_min : ∀ (l : List ℝ) (a c : ℝ), c ≤ a → (∀ x ∈ l, c ≤ x) →
    c ≤ l.foldl min a := by
  intro l
  induction l with
  | nil => intro a c ha _; exact ha
  | cons x xs ih =>
    intro a c ha h
    exact ih (min a x) c (le_min ha (h x (List.mem_cons_self x xs)))
      fun y hy => h y (List.mem_cons_of_mem x hy)

lemma foldl_min_le_mem : ∀ (l : List ℝ) (a x : ℝ), x ∈ l → l.foldl min a ≤ x := by
  intro l
  induction l with
  | nil => intro a x hx; exact absurd hx (List.not_mem_nil x)
  | cons y ys ih =>
    intro a x hx
    rcases List.mem_cons.mp hx with rfl | hx
    · exact le_trans (foldl_min_le ys (min a x)) (min_le_right a x)
    · exact ih (min a y) x hx

lemma extentX_poly_lower (pts : List (ℝ × ℝ)) (q1 q2 : ℝ × ℝ)
    (h1 : q1 ∈ pts) (h2 : q2 ∈ pts) :
    q1.1 - q2.1 ≤ extentX (Boundary.poly pts) := by
  cases pts with
  | nil => exact absurd h1 (List.not_mem_nil q1)
  | cons p ps =>
    have hmax : q1.1 ≤ (ps.map Prod.fst).foldl max p.1 := by
      rcases List.mem_cons.mp h1 with rfl | h1
      · exact le_foldl_max _ _
      · exact mem_le_foldl_max _ _ _ (List.mem_map_of_mem Prod.fst h1)
    have hmin : (ps.map Prod.fst).foldl min p.1 ≤ q2.1 := by
      rcases List.mem_cons.mp h2 with rfl | h2
      · exact foldl_min_le _ _
      · exact foldl_min_le_mem _ _ _ (List.mem_map_of_mem Prod.fst h2)
    simpa [extentX] using sub_le_sub hmax hmin

lemma extentY_poly_lower (pts : List (ℝ × ℝ)) (q1 q2 : ℝ × ℝ)
    (h1 : q1 ∈ pts) (h2 : q2 ∈ pts) :
    q1.2 - q2.2 ≤ extentY (Boundary.poly pts) := by
  cases pts with
  | nil => exact absurd h1 (List.not_mem_nil q1)
  | cons p ps =>
    have hmax : q1.2 ≤ (ps.map Prod.snd).foldl max p.2 := by
      rcases List.mem_cons.mp h1 with rfl | h1
      · exact le_foldl_max _ _
      · exact mem_le_foldl_max _ _ _ (List.mem_map_of_mem Prod.snd h1)
    have hmin : (ps.map Prod.snd).foldl min p.2 ≤ q2.2 := by
      rcases List.mem_cons.mp h2 with rfl | h2
      · exact foldl_min_le _ _
      · exact foldl_min_le_mem _ _ _ (List.mem_map_of_mem Prod.snd h2)
    simpa [extentY] using sub_le_sub hmax hmin

lemma extentX_poly_upper (p : ℝ × ℝ) (ps : List (ℝ × ℝ)) {lo hi : ℝ}
    (h : ∀ q ∈ p :: ps, lo ≤ q.1 ∧ q.1 ≤ hi) :
    extentX (Boundary.poly (p :: ps)) ≤ hi - lo := by
  have hp := h p (List.mem_cons_self p ps)
  have hmax : (ps.map Prod.fst).foldl max p.1 ≤ hi := by
    refine foldl_max_le _ _ _ hp.2 ?_
    intro x hx
    obtain ⟨q, hq, rfl⟩ := List.mem_map.mp hx
    exact (h q (List.mem_cons_of_mem p hq)).2
  have hmin : lo ≤ (ps.map Prod.fst).foldl min p.1 := by
    refine le_foldl_min _ _ _ hp.1 ?_
    intro x hx
    obtain ⟨q, hq, rfl⟩ := List.mem_map.mp hx
    exact (h q (List.mem_cons_of_mem p hq)).1
  simpa [extentX] using sub_le_sub hmax hmin

lemma extentY_poly_upper (p : ℝ × ℝ) (ps : List (ℝ × ℝ)) {lo hi : ℝ}
    (h : ∀ q ∈ p :: ps, lo ≤ q.2 ∧ q.2 ≤ hi) :
    extentY (Boundary.poly (p :: ps)) ≤ hi - lo := by
  have hp := h p (List.mem_cons_self p ps)
  have hmax : (ps.map Prod.snd).foldl max p.2 ≤ hi := by
    refine foldl_max_le _ _ _ hp.2 ?_
    intro x hx
    obtain ⟨q, hq, rfl⟩ := List.mem_map.mp hx
    exact (h q (List.mem_cons_of_mem p hq)).2
  have hmin : lo ≤ (ps.map Prod.snd).foldl min p.2 := by
    refine le_foldl_min _ _ _ hp.1 ?_
    intro x hx
    obtain ⟨q, hq, rfl⟩ := List.mem_map.mp hx
    exact (h q (List.mem_cons_of_mem p hq)).1
  simpa [extentY] using sub_le_sub hmax hmin

lemma foldl_max_mul_right (r : ℝ) (hr : 0 ≤ r) :
    ∀ (l : List ℝ) (a : ℝ), (l.map fun x => x * r).foldl max (a * r)
      = l.foldl max a * r := by
  intro l
  induction l with
  | nil => intro a; rfl
  | cons x xs ih =>
    intro a
    simp only [List.map_cons, List.foldl_cons]
    rw [← max_mul_of_nonneg a x hr, ih]

lemma foldl_min_mul_right (r : ℝ) (hr : 0 ≤ r) :
    ∀ (l : List ℝ) (a : ℝ), (l.map fun x => x * r).foldl min (a * r)
      = l.foldl min a * r := by
  intro l
  induction l with
  | nil => intro a; rfl
  | cons x xs ih =>
    intro a
    simp only [List.map_cons, List.foldl_cons]
    rw [← min_mul_of_nonneg a x hr, ih]

lemma extentX_poly_scale (pts : List (ℝ × ℝ)) (r : ℝ) (hr : 0 ≤ r) :
    extentX (Boundary.poly (pts.map fun q => (q.1 * r, q.2 * r)))
      = extentX (Boundary.poly pts) * r := by
  cases pts with
  | nil => simp [extentX]
  | cons p ps =>
    simp only [List.map_cons, extentX]
    have h1 : List.map Prod.fst (List.map (fun q : ℝ × ℝ => (q.1 * r, q.2 * r)) ps)
        = (ps.map Prod.fst).map fun x => x * r := by
      rw [List.map_map, List.map_map]
      rfl
    rw [h1, foldl_max_mul_right r hr, foldl_min_mul_right r hr, ← sub_mul]

lemma extentY_poly_scale (pts : List (ℝ × ℝ)) (r : ℝ) (hr : 0 ≤ r) :
    extentY (Boundary.poly (pts.map fun q => (q.1 * r, q.2 * r)))
      = extentY (Boundary.poly pts) * r := by
  cases pts with
  | nil => simp [extentY]
  | cons p ps =>
    simp only [List.map_cons, extentY]
    have h1 : List.map Prod.snd (List.map (fun q : ℝ × ℝ => (q.1 * r, q.2 * r)) ps)
        = (ps.map Prod.snd).map fun x => x * r := by
      rw [List.map_map, List.map_map]
      rfl
    rw [h1, foldl_max_mul_right r hr, foldl_min_mul_right r hr, ← sub_mul]

lemma holes_smaller_rectangle (sides : ℕ) (start stop : V3R)
    (hw : 0.01 < |stop.x - start.x|) (hd : 0.01 < |stop.z - start.z|) :
    ∀ hb ∈ (buildShape .rectangle true sides start stop).holes,
      smallerExtent hb (buildShape .rectangle true sides start stop).outer := by
  intro hb hmem
  simp only [buildShape, if_true] at hmem ⊢
  set w := |stop.x - start.x| with hwdef
  set d := |stop.z - start.z| with hddef
  set ix := max (w * 0.08) 0.01 with hixdef
  set iz := max (d * 0.08) 0.01 with hizdef
  rw [List.mem_singleton] at hmem
  subst hmem
  have hw0 : (0 : ℝ) < w := lt_trans (by norm_num) hw
  have hd0 : (0 : ℝ) < d := lt_trans (by norm_num) hd
  have hix0 : (0 : ℝ) < ix := lt_of_lt_of_le (by norm_num) (le_max_right _ _)
  have hiz0 : (0 : ℝ) < iz := lt_of_lt_of_le (by norm_num) (le_max_right _ _)
  have hixw : ix < w := max_lt (by nlinarith) hw
  have hizd : iz < d := max_lt (by nlinarith) hd
  constructor
  · have hup : extentX (Boundary.poly [(-w / 2 + ix, -d / 2 + iz),
        (w / 2 - ix, -d / 2 + iz), (w / 2 - ix, d / 2 - iz),
        (-w / 2 + ix, d / 2 - iz), (-w / 2 + ix, -d / 2 + iz)])
        ≤ max (-w / 2 + ix) (w / 2 - ix) - min (-w / 2 + ix) (w / 2 - ix) := by
      apply extentX_poly_upper
      intro q hq
      have hq1 : q.1 = -w / 2 + ix ∨ q.1 = w / 2 - ix := by
        fin_cases hq <;> simp
      rcases hq1 with h | h <;> rw [h]
      · exact ⟨min_le_left _ _, le_max_left _ _⟩
      · exact ⟨min_le_right _ _, le_max_right _ _⟩
    have habs : max (-w / 2 + ix) (w / 2 - ix) - min (-w / 2 + ix) (w / 2 - ix)
        = |(w / 2 - ix) - (-w / 2 + ix)| := max_sub_min_eq_abs _ _
    have hlt : |(w / 2 - ix) - (-w / 2 + ix)| < w := by
      rw [abs_lt]
      constructor <;> nlinarith
    have hlow := extentX_poly_lower
      [(-w / 2, -d / 2), (w / 2, -d / 2), (w / 2, d / 2), (-w / 2, d / 2),
        (-w / 2, -d / 2)]
      ((w / 2, -d / 2))
      ((-w / 2, -d / 2)) (by simp) (by simp)
    simp only at hlow
    linarith
  · have hup : extentY (Boundary.poly [(-w / 2 + ix, -d / 2 + iz),
        (w / 2 - ix, -d / 2 + iz), (w / 2 - ix, d / 2 - iz),
        (-w / 2 + ix, d / 2 - iz), (-w / 2 + ix, -d / 2 + iz)])
        ≤ max (-d / 2 + iz) (d / 2 - iz) - min (-d / 2 + iz) (d / 2 - iz) := by
      apply extentY_poly_upper
      intro q hq
      have hq2 : q.2 = -d / 2 + iz ∨ q.2 = d / 2 - iz := by
        fin_cases hq <;> simp
      rcases hq2 with h | h <;> rw [h]
      · exact ⟨min_le_left _ _, le_max_left _ _⟩
      · exact ⟨min_le_right _ _, le_max_right _ _⟩
    have habs : max (-d / 2 + iz) (d / 2 - iz) - min (-d / 2 + iz) (d / 2 - iz)
        = |(d / 2 - iz) - (-d / 2 + iz)| := max_sub_min_eq_abs _ _
    have hlt : |(d / 2 - iz) - (-d / 2 + iz)| < d := by
      rw [abs_lt]
      constructor <;> nlinarith
    have hlow := extentY_poly_lower
      [(-w / 2, -d / 2), (w / 2, -d / 2), (w / 2, d / 2), (-w / 2, d / 2),
        (-w / 2, -d / 2)]
      ((w / 2, d / 2))
      ((w / 2, -d / 2)) (by simp) (by simp)
    simp only at hlow
    linarith

lemma holes_smaller_circle (sides : ℕ) (start stop : V3R)
    (hr : 0.01 < dist3 start stop) :
    ∀ hb ∈ (buildShape .circle true sides start stop).holes,
      smallerExtent hb (buildShape .circle true sides start stop).outer := by
  intro hb hmem
  simp only [buildShape, if_true] at hmem ⊢
  set r := dist3 start stop with hrdef
  rw [List.mem_singleton] at hmem
  subst hmem
  have hr0 : (0 : ℝ) < r := lt_trans (by norm_num) hr
  have hlt : max (r * 0.6) 0.01 < r := max_lt (by nlinarith) hr
  constructor
  · simp only [extentX]
    linarith
  · simp only [extentY]
    linarith

lemma holes_smaller_triangle (sides : ℕ) (start stop : V3R)
    (hw : 0 < |stop.x - start.x|) (hd : 0 < |stop.z - start.z|) :
    ∀ hb ∈ (buildShape .triangle true sides start stop).holes,
      smallerExtent hb (buildShape .triangle true sides start stop).outer := by
  intro hb hmem
  simp only [buildShape, if_true] at hmem ⊢
  set w := |stop.x - start.x| with hwdef
  set d := |stop.z - start.z| with hddef
  rw [List.mem_singleton] at hmem
  subst hmem
  constructor
  · have hup : extentX (Boundary.poly [(0, d / 2 * 0.6),
        (w / 2 * 0.6, -(d / 2) * 0.6), (-(w / 2) * 0.6, -(d / 2) * 0.6),
        (0, d / 2 * 0.6)])
        ≤ (w / 2 * 0.6) - (-(w / 2) * 0.6) := by
      apply extentX_poly_upper
      intro q hq
      have hq1 : q.1 = 0 ∨ q.1 = w / 2 * 0.6 ∨ q.1 = -(w / 2) * 0.6 := by
        fin_cases hq <;> simp
      rcases hq1 with h | h | h <;> rw [h] <;> constructor <;> nlinarith
    have hlow := extentX_poly_lower
      [(0, d / 2), (w / 2, -(d / 2)), (-(w / 2), -(d / 2)), (0, d / 2)]
      ((w / 2, -(d / 2)))
      ((-(w / 2), -(d / 2))) (by simp) (by simp)
    simp only at hlow
    nlinarith
  · have hup : extentY (Boundary.poly [(0, d / 2 * 0.6),
        (w / 2 * 0.6, -(d / 2) * 0.6), (-(w / 2) * 0.6, -(d / 2) * 0.6),
        (0, d / 2 * 0.6)])
        ≤ (d / 2 * 0.6) - (-(d / 2) * 0.6) := by
      apply extentY_poly_upper
      intro q hq
      have hq2 : q.2 = d / 2 * 0.6 ∨ q.2 = -(d / 2) * 0.6 := by
        fin_cases hq <;> simp
      rcases hq2 with h | h <;> rw [h] <;> constructor <;> nlinarith
    have hlow := extentY_poly_lower
      [(0, d / 2), (w / 2, -(d / 2)), (-(w / 2), -(d / 2)), (0, d / 2)]
      ((0, d / 2))
      ((w / 2, -(d / 2))) (by simp) (by simp)
    simp only at hlow
    nlinarith

lemma extentX_poly_upper_ne (pts : List (ℝ × ℝ)) (hne : pts ≠ []) {lo hi : ℝ}
    (h : ∀ q ∈ pts, lo ≤ q.1 ∧ q.1 ≤ hi) :
    extentX (Boundary.poly pts) ≤ hi - lo := by
  cases pts with
  | nil => exact absurd rfl hne
  | cons p ps => exact extentX_poly_upper p ps h

lemma extentY_poly_upper_ne (pts : List (ℝ × ℝ)) (hne : pts ≠ []) {lo hi : ℝ}
    (h : ∀ q ∈ pts, lo ≤ q.2 ∧ q.2 ≤ hi) :
    extentY (Boundary.poly pts) ≤ hi - lo := by
  cases pts with
  | nil => exact absurd rfl hne
  | cons p ps => exact extentY_poly_upper p ps h

lemma holes_smaller_ellipse (sides : ℕ) (start stop : V3R)
    (hx : 0.01 < |stop.x - start.x|) (hz : 0.01 < |stop.z - start.z|) :
    ∀ hb ∈ (buildShape .ellipse true sides start stop).holes,
      smallerExtent hb (buildShape .ellipse true sides start stop).outer := by
  intro hb hmem
  simp only [buildShape, if_true] at hmem ⊢
  set rx := |stop.x - start.x| with hrxdef
  set ry := |stop.z - start.z| with hrydef
  set irx := max (rx * 0.6) 0.01 with hirxdef
  set iry := max (ry * 0.6) 0.01 with hirydef
  rw [List.mem_singleton] at hmem
  subst hmem
  have hrx0 : (0 : ℝ) < rx := lt_trans (by norm_num) hx
  have hry0 : (0 : ℝ) < ry := lt_trans (by norm_num) hz
  have hirx0 : (0 : ℝ) < irx := lt_of_lt_of_le (by norm_num) (le_max_right _ _)
  have hiry0 : (0 : ℝ) < iry := lt_of_lt_of_le (by norm_num) (le_max_right _ _)
  have hirx : irx < rx := max_lt (by nlinarith) hx
  have hiry : iry < ry := max_lt (by nlinarith) hz
  have hc32 : ((32 : ℕ) : ℝ) / 64 * Real.pi * 2 = Real.pi := by push_cast; ring
  have hc16 : ((16 : ℕ) : ℝ) / 64 * Real.pi * 2 = Real.pi / 2 := by push_cast; ring
  have hc48 : ((48 : ℕ) : ℝ) / 64 * Real.pi * 2 = Real.pi / 2 + Real.pi := by
    push_cast; ring
  constructor
  · have hup : extentX (Boundary.poly ((List.range 65).map fun i : ℕ =>
        (irx * Real.cos ((i : ℝ) / 64 * Real.pi * 2),
         iry * Real.sin ((i : ℝ) / 64 * Real.pi * 2)))) ≤ irx - (-irx) := by
      apply extentX_poly_upper_ne _ (by simp)
      intro q hq
      obtain ⟨i, _, rfl⟩ := List.mem_map.mp hq
      constructor
      · have := mul_le_mul_of_nonneg_left
          (Real.neg_one_le_cos ((i : ℝ) / 64 * Real.pi * 2)) hirx0.le
        simpa using this
      · have := mul_le_mul_of_nonneg_left
          (Real.cos_le_one ((i : ℝ) / 64 * Real.pi * 2)) hirx0.le
        simpa using this
    have hlow := extentX_poly_lower
      ((List.range 65).map fun i : ℕ =>
        (rx * Real.cos ((i : ℝ) / 64 * Real.pi * 2),
         ry * Real.sin ((i : ℝ) / 64 * Real.pi * 2)))
      ((rx * Real.cos (((0 : ℕ) : ℝ) / 64 * Real.pi * 2),
        ry * Real.sin (((0 : ℕ) : ℝ) / 64 * Real.pi * 2)))
      ((rx * Real.cos (((32 : ℕ) : ℝ) / 64 * Real.pi * 2),
        ry * Real.sin (((32 : ℕ) : ℝ) / 64 * Real.pi * 2)))
      (List.mem_map_of_mem _ (List.mem_range.mpr (by norm_num)))
      (List.mem_map_of_mem _ (List.mem_range.mpr (by norm_num)))
    rw [hc32] at hlow
    norm_num [Real.cos_pi] at hlow
    linarith
  · have hup : extentY (Boundary.poly ((List.range 65).map fun i : ℕ =>
        (irx * Real.cos ((i : ℝ) / 64 * Real.pi * 2),
         iry * Real.sin ((i : ℝ) / 64 * Real.pi * 2)))) ≤ iry - (-iry) := by
      apply extentY_poly_upper_ne _ (by simp)
      intro q hq
      obtain ⟨i, _, rfl⟩ := List.mem_map.mp hq
      constructor
      · have := mul_le_mul_of_nonneg_left
          (Real.neg_one_le_sin ((i : ℝ) / 64 * Real.pi * 2)) hiry0.le
        simpa using this
      · have := mul_le_mul_of_nonneg_left
          (Real.sin_le_one ((i : ℝ) / 64 * Real.pi * 2)) hiry0.le
        simpa using this
    have hlow := extentY_poly_lower
      ((List.range 65).map fun i : ℕ =>
        (rx * Real.cos ((i : ℝ) / 64 * Real.pi * 2),
         ry * Real.sin ((i : ℝ) / 64 * Real.pi * 2)))
      ((rx * Real.cos (((16 : ℕ) : ℝ) / 64 * Real.pi * 2),
        ry * Real.sin (((16 : ℕ) : ℝ) / 64 * Real.pi * 2)))
      ((rx * Real.cos (((48 : ℕ) : ℝ) / 64 * Real.pi * 2),
        ry * Real.sin (((48 : ℕ) : ℝ) / 64 * Real.pi * 2)))
      (List.mem_map_of_mem _ (List.mem_range.mpr (by norm_num)))
      (List.mem_map_of_mem _ (List.mem_range.mpr (by norm_num)))
    rw [hc16, hc48] at hlow
    norm_num [Real.sin_pi_div_two, Real.sin_add_pi] at hlow
    linarith

lemma holes_smaller_polygon (sides : ℕ) (start stop : V3R)
    (hr : 0.01 < dist3 start stop) :
    ∀ hb ∈ (buildShape .polygon true sides start stop).holes,
      smallerExtent hb (buildShape .polygon true sides start stop).outer := by
  intro hb hmem
  simp only [buildShape, if_true] at hmem ⊢
  set n := effectiveSides sides with hndef
  set r := dist3 start stop with hrdef
  set ir := max (r * 0.5) 0.01 with hirdef
  rw [List.mem_singleton] at hmem
  subst hmem
  have hn3 : 3 ≤ n := by
    rw [hndef]
    unfold effectiveSides
    exact le_max_left _ _
  have hr0 : (0 : ℝ) < r := lt_trans (by norm_num) hr
  have hir : ir < r := max_lt (by nlinarith) hr
  have hir0 : (0 : ℝ) < ir := lt_of_lt_of_le (by norm_num) (le_max_right _ _)
  have hn0 : (0 : ℝ) < (n : ℝ) := by
    exact_mod_cast lt_of_lt_of_le (by norm_num) hn3
  set upts := (List.range n).map (fun i : ℕ =>
    (Real.cos ((i : ℝ) / (n : ℝ) * Real.pi * 2),
     Real.sin ((i : ℝ) / (n : ℝ) * Real.pi * 2))) with hupts
  have hscaleO : (List.range n).map (fun i : ℕ =>
      (Real.cos ((i : ℝ) / (n : ℝ) * Real.pi * 2) * r,
       Real.sin ((i : ℝ) / (n : ℝ) * Real.pi * 2) * r))
      = upts.map fun q => (q.1 * r, q.2 * r) := by
    rw [hupts, List.map_map]
    rfl
  have hscaleI : (List.range n).map (fun i : ℕ =>
      (Real.cos ((i : ℝ) / (n : ℝ) * Real.pi * 2) * ir,
       Real.sin ((i : ℝ) / (n : ℝ) * Real.pi * 2) * ir))
      = upts.map fun q => (q.1 * ir, q.2 * ir) := by
    rw [hupts, List.map_map]
    rfl
  rw [hscaleO, hscaleI]
  have hθpos : 0 < (1 : ℝ) / (n : ℝ) * Real.pi * 2 := by positivity
  have hinv : (1 : ℝ) / (n : ℝ) ≤ 1 / 3 :=
    one_div_le_one_div_of_le (by norm_num) (by exact_mod_cast hn3)
  have hinv0 : 0 < (1 : ℝ) / (n : ℝ) := by positivity
  have hθlt : (1 : ℝ) / (n : ℝ) * Real.pi * 2 < Real.pi := by
    nlinarith [Real.pi_pos]
  have hcoslt : Real.cos ((1 : ℝ) / (n : ℝ) * Real.pi * 2) < 1 := by
    simpa [Real.cos_zero] using
      Real.cos_lt_cos_of_nonneg_of_le_pi (le_refl (0 : ℝ)) hθlt.le hθpos
  have hsinpos : 0 < Real.sin ((1 : ℝ) / (n : ℝ) * Real.pi * 2) :=
    Real.sin_pos_of_pos_of_lt_pi hθpos hθlt
  rw [one_div] at hcoslt hsinpos
  have h0mem : ((Real.cos (((0 : ℕ) : ℝ) / (n : ℝ) * Real.pi * 2),
      Real.sin (((0 : ℕ) : ℝ) / (n : ℝ) * Real.pi * 2)) : ℝ × ℝ) ∈ upts := by
    rw [hupts]
    exact List.mem_map_of_mem _ (List.mem_range.mpr (by omega))
  have h1mem : ((Real.cos (((1 : ℕ) : ℝ) / (n : ℝ) * Real.pi * 2),
      Real.sin (((1 : ℕ) : ℝ) / (n : ℝ) * Real.pi * 2)) : ℝ × ℝ) ∈ upts := by
    rw [hupts]
    exact List.mem_map_of_mem _ (List.mem_range.mpr (by omega))
  have hcx : 0 < extentX (Boundary.poly upts) := by
    have hlow := extentX_poly_lower upts _ _ h0mem h1mem
    norm_num [Real.cos_zero] at hlow
    linarith
  have hcy : 0 < extentY (Boundary.poly upts) := by
    have hlow := extentY_poly_lower upts _ _ h1mem h0mem
    norm_num [Real.sin_zero] at hlow
    linarith
  constructor
  · rw [extentX_poly_scale upts r hr0.le, extentX_poly_scale upts ir hir0.le]
    exact mul_lt_mul_of_pos_left hir hcx
  · rw [extentY_poly_scale upts r hr0.le, extentY_poly_scale upts ir hir0.le]
    exact mul_lt_mul_of_pos_left hir hcy

/-- Per-tool non-degeneracy of an anchor pair: each dimension that
drives the hollow inset or inner radius exceeds the 0.01 floor (the
triangle's hole is a pure 0.6 scaling, so mere positivity suffices
there). -/
def nondegenerate (tool : Tool) (start stop : V3R) : Prop :=
  match tool with
  | .rectangle => 0.01 < |stop.x - start.x| ∧ 0.01 < |stop.z - start.z|
  | .circle => 0.01 < dist3 start stop
  | .triangle => 0 < |stop.x - start.x| ∧ 0 < |stop.z - start.z|
  | .ellipse => 0.01 < |stop.x - start.x| ∧ 0.01 < |stop.z - start.z|
  | .polygon => 0.01 < dist3 start stop

/-- Claim C3 (amended): for every sketch tool and every pair of anchor
points the outline builder produces an outer boundary with at least 3
points; and whenever the anchor pair is non-degenerate (each driving
dimension above the 0.01 inset/radius floor; merely positive for the
triangle), every hole built in hollow mode is strictly smaller in
extent than the outer boundary.  A degenerate drag, which the spec
admits the builder does not reject, violates the unconditional hollow
statement: see the counterexample. -/
theorem buildProfile_boundaries (tool : Tool) (sides : ℕ) (start stop : V3R) :
    3 ≤ (buildOutlinePoints tool sides start stop).length ∧
    (nondegenerate tool start stop →
      ∀ hb ∈ (buildShape tool true sides start stop).holes,
        smallerExtent hb (buildShape tool true sides start stop).outer) := by
  cases tool with
  | rectangle =>
    refine ⟨by norm_num [buildOutlinePoints], fun h => ?_⟩
    simp only [nondegenerate] at h
    exact holes_smaller_rectangle sides start stop h.1 h.2
  | circle =>
    refine ⟨by norm_num [buildOutlinePoints], fun h => ?_⟩
    simp only [nondegenerate] at h
    exact holes_smaller_circle sides start stop h
  | triangle =>
    refine ⟨by norm_num [buildOutlinePoints], fun h => ?_⟩
    simp only [nondegenerate] at h
    exact holes_smaller_triangle sides start stop h.1 h.2
  | ellipse =>
    refine ⟨by norm_num [buildOutlinePoints], fun h => ?_⟩
    simp only [nondegenerate] at h
    exact holes_smaller_ellipse sides start stop h.1 h.2
  | polygon =>
    refine ⟨?_, fun h => ?_⟩
    · simp only [buildOutlinePoints, List.length_map, List.length_range]
      unfold effectiveSides
      exact le_max_left _ _
    · simp only [nondegenerate] at h
      exact holes_smaller_polygon sides start stop h

/-- The non-degenerate witness anchor. -/
def witnessEnd : V3R := { x := 1, y := 0, z := 1 }

theorem buildProfile_boundaries_witness :
    nondegenerate .rectangle originPt witnessEnd ∧
    3 ≤ (buildOutlinePoints .rectangle 5 originPt witnessEnd).length ∧
    (∀ hb ∈ (buildShape .rectangle true 5 originPt witnessEnd).holes,
      smallerExtent hb (buildShape .rectangle true 5 originPt witnessEnd).outer) := by
  have hnd : nondegenerate .rectangle originPt witnessEnd := by
    simp only [nondegenerate, originPt, witnessEnd]
    norm_num
  have h := buildProfile_boundaries .rectangle 5 originPt witnessEnd
  exact ⟨hnd, h.1, h.2 hnd⟩

end

end Builder
